import Mathlib

/-!
# ErrorControl (dolfin/adaptivity/ErrorControl.cpp): a shallow embedding

Conventions of the embedding.

* `double` values are idealised as rationals (`ℚ`): rounding, infinities and NaN are
  outside the model.
* `unsigned int` arithmetic is carried out in `Int` and reduced modulo `2^32`.
* Forms, function spaces and functions are plain values; the collaborators that the
  source only calls (assembler, local assembler, dense solver, variational solver,
  extrapolation, interpolation, boundary-condition application) are the fields of a
  `Collaborators` record that every operation takes as a parameter.
* A C++ exception is a `Result.threw` carrying the state reached when it was raised.
* A coefficient slot shows the value of the object attached to it. The lifetime of the
  attached objects is recorded by a second run of the same member functions (`Tracked`,
  `compute_indicators_tracked`), which does to the state what the first one does
  (`simulates_compute_indicators_body`).
-/

set_option autoImplicit false

namespace ErrorControl

/-! ## Cone-function indices (compute_facet_residual, lines 316-325) -/

/-- Number of values of an `unsigned int`. -/
def UINT_RANGE : Int := 2 ^ 32

/-- The expression `local_cone_dim*(k + 1) - (dim + 1) + local_facet` of line 324: the
operands are `int`, `uint`, `int`, `int`, so the arithmetic is done in `unsigned int`. -/
def facet_dof (local_cone_dim dim : Int) (k : Nat) (local_facet : Int) : Nat :=
  ((local_cone_dim * ((k : Int) + 1) - (dim + 1) + local_facet) % UINT_RANGE).toNat

/-- The vector `facet_dofs` after the inner loop `for (uint k = 0; k < num_cells; k++)`
(lines 322-324): cleared, then one index pushed per cell. -/
def facet_dofs (local_cone_dim dim : Int) (num_cells : Nat) (local_facet : Int) : List Nat :=
  (List.range num_cells).map (fun k => facet_dof local_cone_dim dim k local_facet)

/-- The separation property of the cone indices: for labels `l`, `m` in `0..dim` and cells
`k`, `j` below `num_cells`, two indices coincide only for the same label and the same cell. -/
def cone_indices_separated (local_cone_dim dim num_cells : Nat) : Prop :=
  ∀ l m k j : Nat, l ≤ dim → m ≤ dim → k < num_cells → j < num_cells →
    facet_dof local_cone_dim dim k l = facet_dof local_cone_dim dim j m → l = m ∧ k = j

/-! ## Regularisation of the local system (compute_facet_residual, lines 344-352) -/

/-- The tolerance `1.0e-10` of line 347. -/
def TOL : ℚ := 1 / 10 ^ 10

/-- A local system: the `N x N` matrix `A` and the right-hand side `b`. -/
abbrev LocalSystem (N : Nat) : Type := Matrix (Fin N) (Fin N) ℚ × (Fin N → ℚ)

/-- Body of the loop of lines 345-352 for one index `i`. -/
def nonsingularize_step {N : Nat} (s : LocalSystem N) (i : Fin N) : LocalSystem N :=
  if |s.1 i i| < TOL then
    (Function.update s.1 i (Function.update (s.1 i) i 1), Function.update s.2 i 0)
  else s

/-- The loop `for (uint i = 0; i < N; ++i)` of lines 345-352. -/
def nonsingularize {N : Nat} (A : Matrix (Fin N) (Fin N) ℚ) (b : Fin N → ℚ) : LocalSystem N :=
  (List.finRange N).foldl nonsingularize_step (A, b)

/-! ## Data model -/

/-- Error signals. -/
inductive Err where
  /-- The call `error("Not implemented for tensor-valued functions")` of line 167. -/
  | not_implemented
  /-- A coefficient slot or function-space index that the form does not have. -/
  | configuration
  /-- The dense solver `arma::solve` found no solution. -/
  | linear_algebra
  /-- The stored pointer `_Ez_h` was dereferenced while empty. -/
  | null_pointer
  /-- A member of the facet family was indexed out of range. -/
  | out_of_range
deriving DecidableEq, Repr

/-- What the source reads of a `Mesh`: `geometry().dim()`, `topology().dim()`,
`num_cells()`. -/
structure Mesh where
  geometry_dim : Nat
  topology_dim : Nat
  num_cells : Nat
deriving DecidableEq, Repr

/-- What the source reads of a `FunctionSpace`: its mesh, the element's
`space_dimension()`, `value_rank()` and `value_dimension(0)`, the sub-space path
`component()`, the global dimension and the table `dofmap().cell_dofs(c)`. -/
structure FunctionSpace where
  label : Nat
  mesh : Mesh
  space_dimension : Nat
  value_rank : Nat
  value_dimension : Nat
  component : List Nat
  dim : Nat
  cell_dofs : List (List Nat)
deriving DecidableEq, Repr

/-- A discrete function: a function space and a coefficient vector. -/
structure Function where
  function_space : FunctionSpace
  vector : List ℚ
deriving DecidableEq, Repr

/-- The constructor `Function(V)`: the zero function of the space. -/
def Function.create (V : FunctionSpace) : Function :=
  { function_space := V, vector := List.replicate V.dim 0 }

/-- The accessor `Function::geometric_dimension()`. -/
def Function.geometric_dimension (f : Function) : Nat :=
  f.function_space.mesh.geometry_dim

/-- The accessor `Function::value_rank()`. -/
def Function.value_rank (f : Function) : Nat :=
  f.function_space.value_rank

/-- Modelled from the spec: `GenericVector::set(block, m, rows)` (dolfin/la is not part of
the sources at hand), the "direct scatter of a local solution vector into specified global
indices": entry `rows[i]` receives `block[i]`. -/
def vector_set (v : List ℚ) (block : List ℚ) (rows : List Nat) : List ℚ :=
  (rows.zip block).foldl (fun acc p => acc.set p.1 p.2) v

/-- Modelled from the spec: `GenericVector::abs()` (dolfin/la is not part of the sources at
hand), which "takes the element-wise absolute value". -/
def vector_abs (v : List ℚ) : List ℚ :=
  v.map (fun x => |x|)

/-- A `DirichletBC`: the function space it is built on, its value and its markers. The
vector `bcs` of the source holds `BoundaryCondition` pointers that are cast to
`DirichletBC`; the model takes them as `DirichletBC` values. -/
structure DirichletBC where
  function_space : FunctionSpace
  value : Function
  markers : List (Nat × Nat)
deriving DecidableEq, Repr

/-- A `SpecialFacetFunction`: the family `f_e` and the optional value dimension given to
its constructor. -/
structure SpecialFacetFunction where
  f_e : List Function
  value_dim : Option Nat
deriving DecidableEq, Repr

/-- What a coefficient slot of a form can hold: the value that the attached object had
when it was attached. The form refers to the object; whether the object is still alive is
recorded apart, in `Tracked`. -/
inductive Coefficient where
  | unset
  | function (f : Function)
  | facet_function (f : SpecialFacetFunction)
deriving DecidableEq, Repr

/-- A weak form: its function spaces (`function_space(i)`) and its coefficient slots. -/
structure Form where
  function_spaces : List FunctionSpace
  coefficients : List Coefficient
deriving DecidableEq, Repr

/-- The accessor `Form::num_coefficients()`. -/
def Form.num_coefficients (a : Form) : Nat :=
  a.coefficients.length

/-- Modelled from the spec: `Form::set_coefficient(i, c)` (dolfin/fem/Form.cpp is not part
of the sources at hand): "coefficient slots are filled by position", and writing an index
the form does not have is a configuration error. -/
def Form.set_coefficient (a : Form) (i : Nat) (c : Coefficient) : Option Form :=
  if i < a.coefficients.length then
    some { a with coefficients := a.coefficients.set i c }
  else none

/-- Subtraction of two `uint` values. -/
def usub (a b : Nat) : Nat :=
  (((a : Int) - (b : Int)) % UINT_RANGE).toNat

/-- The collaborators that the source calls and does not define. -/
structure Collaborators where
  /-- `VariationalProblem(a, L, bcs).solve(z)`: the solved `z`. -/
  variational_solve : Form → Form → List DirichletBC → Function → Function
  /-- `target.extrapolate(z)`: the target after the call. -/
  extrapolate : Function → Function → Function
  /-- `target.interpolate(v)`: the target after the call. -/
  interpolate : Function → Function → Function
  /-- `bc.apply(x)`: the vector after the call. -/
  bc_apply : DirichletBC → List ℚ → List ℚ
  /-- `assemble(form)` for a functional. -/
  assemble_scalar : Form → ℚ
  /-- `assemble(x, form)` for a vector: the value of `x` after the call. -/
  assemble_vector : Form → List ℚ
  /-- `LocalAssembler::assemble(A, ufc, cell, ...)` for a matrix. -/
  local_matrix : Form → Nat → (N : Nat) → Matrix (Fin N) (Fin N) ℚ
  /-- `LocalAssembler::assemble(b, ufc, cell, ...)` for a vector. -/
  local_vector : Form → Nat → (N : Nat) → Fin N → ℚ
  /-- `arma::solve(A, b)`; `none` when no solution is found. -/
  solve : (N : Nat) → Matrix (Fin N) (Fin N) ℚ → (Fin N → ℚ) → Option (Fin N → ℚ)

/-- Names of the eight forms owned by the orchestrator. -/
inductive FormId where
  | a_star | L_star | residual | a_R_T | L_R_T | a_R_dT | L_R_dT | eta_T
deriving DecidableEq, Repr

/-- The members of `ErrorControl`, together with two pieces of the caller's world that the
claims speak about: the vector `indicators` that `compute_indicators` receives by
reference, and the number of dense local solves performed so far. Forms are distinct
objects; a slot shows the value of the object attached to it (its lifetime is recorded in
`Tracked`). -/
structure State where
  a_star : Form
  L_star : Form
  residual : Form
  a_R_T : Form
  L_R_T : Form
  a_R_dT : Form
  L_R_dT : Form
  eta_T : Form
  is_linear : Bool
  E : FunctionSpace
  C : FunctionSpace
  Ez_h : Option Function
  indicators : List ℚ
  solves : Nat
deriving DecidableEq, Repr

/-- Read a form of the state. -/
def State.form (s : State) : FormId → Form
  | .a_star => s.a_star
  | .L_star => s.L_star
  | .residual => s.residual
  | .a_R_T => s.a_R_T
  | .L_R_T => s.L_R_T
  | .a_R_dT => s.a_R_dT
  | .L_R_dT => s.L_R_dT
  | .eta_T => s.eta_T

/-- Replace a form of the state. -/
def State.with_form (s : State) (id : FormId) (f : Form) : State :=
  match id with
  | .a_star => { s with a_star := f }
  | .L_star => { s with L_star := f }
  | .residual => { s with residual := f }
  | .a_R_T => { s with a_R_T := f }
  | .L_R_T => { s with L_R_T := f }
  | .a_R_dT => { s with a_R_dT := f }
  | .L_R_dT => { s with L_R_dT := f }
  | .eta_T => { s with eta_T := f }

/-- Outcome of a member function: a normal return with a value, or an exception; both
carry the state reached. -/
inductive Result (α : Type) where
  | ok (a : α) (s : State)
  | threw (e : Err) (s : State)
deriving DecidableEq, Repr

/-- The state an outcome carries. -/
def Result.state {α : Type} : Result α → State
  | .ok _ s => s
  | .threw _ s => s

/-- A member function of `ErrorControl`. -/
def M (α : Type) : Type := State → Result α

/-- Normal return. -/
def M.pure {α : Type} (a : α) : M α := fun s => .ok a s

/-- Sequencing: an exception of the first part skips the second. -/
def M.bind {α β : Type} (m : M α) (f : α → M β) : M β := fun s =>
  match m s with
  | .ok a t => f a t
  | .threw e t => .threw e t

instance : Monad M where
  pure := M.pure
  bind := M.bind

/-- Raise an exception. -/
def raise {α : Type} (e : Err) : M α := fun s => .threw e s

/-- Read the state. -/
def get_state : M State := fun s => .ok s s

/-- Apply a change to the state. -/
def modify_state (f : State → State) : M Unit := fun s => .ok () (f s)

/-- The call `form->function_space(i)`. -/
def function_space (id : FormId) (i : Nat) : M FunctionSpace := fun s =>
  match (s.form id).function_spaces[i]? with
  | some V => .ok V s
  | none => .threw .configuration s

/-- The call `form->set_coefficient(i, c)`. -/
def set_coefficient (id : FormId) (i : Nat) (c : Coefficient) : M Unit := fun s =>
  match (s.form id).set_coefficient i c with
  | some f => .ok () (s.with_form id f)
  | none => .threw .configuration s

/-- The dereference `*_Ez_h`. -/
def deref_Ez_h : M Function := fun s =>
  match s.Ez_h with
  | some e => .ok e s
  | none => .threw .null_pointer s

/-- One call of `arma::solve`, counted. -/
def local_solve (env : Collaborators) (N : Nat) (A : Matrix (Fin N) (Fin N) ℚ)
    (b : Fin N → ℚ) : M (Fin N → ℚ) := fun s =>
  match env.solve N A b with
  | some x => .ok x { s with solves := s.solves + 1 }
  | none => .threw .linear_algebra { s with solves := s.solves + 1 }

/-- The statement `if (_is_linear) act;`. -/
def if_linear (act : M Unit) : M Unit := fun s =>
  if s.is_linear then act s else .ok () s

/-! ## The member functions -/

/-- The constructor (lines 33-61): stores the forms and extracts `_E` from the last
coefficient of the residual form and `_C` from coefficient 0 of `a_R_dT`. -/
def create (a_star L_star residual a_R_T L_R_T a_R_dT L_R_dT eta_T : Form)
    (is_linear : Bool) (indicators : List ℚ) : Except Err State :=
  let improved_dual := usub residual.num_coefficients 1
  match residual.coefficients[improved_dual]?, a_R_dT.coefficients[0]? with
  | some (Coefficient.function e_tmp), some (Coefficient.function b_tmp) =>
    .ok { a_star := a_star, L_star := L_star, residual := residual, a_R_T := a_R_T,
          L_R_T := L_R_T, a_R_dT := a_R_dT, L_R_dT := L_R_dT, eta_T := eta_T,
          is_linear := is_linear, E := e_tmp.function_space, C := b_tmp.function_space,
          Ez_h := none, indicators := indicators, solves := 0 }
  | _, _ => .error .configuration

/-- The member function `compute_dual` (lines 91-102): the boundary conditions are passed on as they are. -/
def compute_dual (env : Collaborators) (z : Function) (bcs : List DirichletBC) :
    M Function := do
  let dual_bcs := bcs.foldl (fun acc bc => acc ++ [bc]) []
  let s ← get_state
  pure (env.variational_solve s.a_star s.L_star dual_bcs z)

/-- The boundary condition `e_bc` that one pass of the loop of lines 112-146 applies to
the vector of `_Ez_h`: in the branch `component.size() == 0` it is
`DirichletBC e_bc(V, u0, bc.markers())` with `V = bc.function_space()` and `u0 = Function(V)`;
in the other branch `e_bc` is built and the call of `apply` is commented out. -/
def extrapolation_bc (bc : DirichletBC) : Option DirichletBC :=
  let V := bc.function_space
  let component := V.component
  if component.length = 0 then
    let u0 := Function.create V
    some { function_space := V, value := u0, markers := bc.markers }
  else none

/-- One pass of the loop of lines 112-146 on the vector of `_Ez_h`. -/
def apply_extrapolation_bc (env : Collaborators) (Ez_h : Function) (bc : DirichletBC) :
    Function :=
  match extrapolation_bc bc with
  | some e_bc => { Ez_h with vector := env.bc_apply e_bc Ez_h.vector }
  | none => Ez_h

/-- The member function `compute_extrapolation` (lines 104-147). -/
def compute_extrapolation (env : Collaborators) (z : Function) (bcs : List DirichletBC) :
    M Unit := do
  let s ← get_state
  let Ez_h := env.extrapolate (Function.create s.E) z
  modify_state (fun t => { t with Ez_h := some (bcs.foldl (apply_extrapolation_bc env) Ez_h) })

/-- The member function `estimate_error` (lines 63-89). Line 77 hands the pointer `_Ez_h`
to the form; it was set by `compute_extrapolation` just before, and the form holds the
function it points to. -/
def estimate_error (env : Collaborators) (u : Function) (bcs : List DirichletBC) : M ℚ := do
  let V ← function_space .a_star 1
  let z_h ← compute_dual env (Function.create V) bcs
  compute_extrapolation env z_h bcs
  let s ← get_state
  let num_coeffs := s.residual.num_coefficients
  let Ez_h ← deref_Ez_h
  set_coefficient .residual (usub num_coeffs 1) (.function Ez_h)
  if_linear (set_coefficient .residual (usub num_coeffs 2) (.function u))
  let t ← get_state
  pure (env.assemble_scalar t.residual)

/-- The cell loop of `compute_cell_residual` (lines 245-261). -/
def cell_residual_loop (env : Collaborators) (a L : Form) (N : Nat) :
    List Nat → Function → M Function
  | [], R_T => pure R_T
  | cell :: cells, R_T => do
    let A := env.local_matrix a cell N
    let b := env.local_vector L cell N
    let x ← local_solve env N A b
    let dofs := (R_T.function_space.cell_dofs[cell]?).getD []
    cell_residual_loop env a L N cells
      { R_T with vector := vector_set R_T.vector (List.ofFn x) dofs }

/-- The member function `compute_cell_residual` (lines 212-263). -/
def compute_cell_residual (env : Collaborators) (R_T u : Function) : M Function := do
  let s ← get_state
  if_linear (set_coefficient .L_R_T (usub s.L_R_T.num_coefficients 2) (.function u))
  let t ← get_state
  let V := R_T.function_space
  cell_residual_loop env t.a_R_T t.L_R_T V.space_dimension (List.range V.mesh.num_cells) R_T

/-- The cell loop of `compute_facet_residual` (lines 336-362) for one local facet; `V` is
the common space, whose dof map gives `dofs`; the write of line 361 indexes
`R_dT[local_facet]`. -/
def facet_residual_cell_loop (env : Collaborators) (a L : Form) (V : FunctionSpace)
    (N : Nat) (local_facet : Nat) :
    List Nat → SpecialFacetFunction → M SpecialFacetFunction
  | [], R_dT => pure R_dT
  | cell :: cells, R_dT => do
    let A := env.local_matrix a cell N
    let b := env.local_vector L cell N
    let r := nonsingularize A b
    let x ← local_solve env N r.1 r.2
    let dofs := (V.cell_dofs[cell]?).getD []
    match R_dT.f_e[local_facet]? with
    | none => raise .out_of_range
    | some f =>
      let g : Function := { f with vector := vector_set f.vector (List.ofFn x) dofs }
      facet_residual_cell_loop env a L V N local_facet cells
        { R_dT with f_e := R_dT.f_e.set local_facet g }

/-- The cone function `b_e` of lines 321-325 for one local facet. -/
def cone_function (C : FunctionSpace) (local_cone_dim dim : Int) (num_cells : Nat)
    (local_facet : Int) : Function :=
  let b_e := Function.create C
  let ones := List.replicate num_cells (1 : ℚ)
  { b_e with vector :=
      vector_set b_e.vector ones (facet_dofs local_cone_dim dim num_cells local_facet) }

/-- The loop over the local facets of `compute_facet_residual` (lines 316-363). -/
def facet_residual_loop (env : Collaborators) (V : FunctionSpace) (N : Nat) (dim : Nat)
    (local_cone_dim : Nat) (num_cells : Nat) (L_R_dT_num_coefficients : Nat) :
    List Nat → SpecialFacetFunction → M SpecialFacetFunction
  | [], R_dT => pure R_dT
  | local_facet :: rest, R_dT => do
    let s ← get_state
    let b_e := cone_function s.C local_cone_dim dim num_cells local_facet
    set_coefficient .a_R_dT 0 (.function b_e)
    set_coefficient .L_R_dT (usub L_R_dT_num_coefficients 1) (.function b_e)
    let t ← get_state
    let R_dT ← facet_residual_cell_loop env t.a_R_dT t.L_R_dT V N local_facet
      (List.range V.mesh.num_cells) R_dT
    facet_residual_loop env V N dim local_cone_dim num_cells L_R_dT_num_coefficients
      rest R_dT

/-- The member function `compute_facet_residual` (lines 265-365). -/
def compute_facet_residual (env : Collaborators) (R_dT : SpecialFacetFunction)
    (u R_T : Function) : M SpecialFacetFunction := do
  match R_dT.f_e[0]? with
  | none => raise .out_of_range
  | some f0 =>
    let V := f0.function_space
    let N := V.space_dimension
    let dim := V.mesh.topology_dim
    let s ← get_state
    let local_cone_dim := s.C.space_dimension
    let L_R_dT_num_coefficients := s.L_R_dT.num_coefficients
    if_linear (set_coefficient .L_R_dT (usub L_R_dT_num_coefficients 3) (.function u))
    set_coefficient .L_R_dT (usub L_R_dT_num_coefficients 2) (.function R_T)
    let num_cells := V.mesh.num_cells
    facet_residual_loop env V N dim local_cone_dim num_cells L_R_dT_num_coefficients
      (List.range (dim + 1)) R_dT

/-- The member function `residual_representation` (lines 195-210): the cell pass, then the facet pass. -/
def residual_representation (env : Collaborators) (R_T : Function)
    (R_dT : SpecialFacetFunction) (u : Function) : M (Function × SpecialFacetFunction) := do
  let R_T ← compute_cell_residual env R_T u
  let R_dT ← compute_facet_residual env R_dT u R_T
  pure (R_T, R_dT)

/-- The family `f_e` built by the loop of lines 155-157. -/
def facet_family (R_T : Function) (V : FunctionSpace) : List Function :=
  (List.range (R_T.geometric_dimension + 1)).map (fun _ => Function.create V)

/-- The construction of `R_dT` (lines 159-168): scalar-valued, vector-valued, or the
error for tensor-valued functions. -/
def special_facet_function (f_e : List Function) (f0 : Function) : M SpecialFacetFunction :=
  if f0.value_rank = 0 then
    pure { f_e := f_e, value_dim := none }
  else if f0.value_rank = 1 then
    pure { f_e := f_e, value_dim := some f0.function_space.value_dimension }
  else
    raise .not_implemented

/-- The member function `compute_indicators` (lines 149-193); `f0` is `f_e[0]` (the loop of lines 155-157 runs
at least once). -/
def compute_indicators (env : Collaborators) (u : Function) : M Unit := do
  let V_T ← function_space .a_R_T 1
  let R_T := Function.create V_T
  let V_dT ← function_space .a_R_dT 1
  let f_e := facet_family R_T V_dT
  let f0 := f_e.headD (Function.create V_dT)
  let R_dT ← special_facet_function f_e f0
  let r ← residual_representation env R_T R_dT u
  let V_star ← function_space .a_star 1
  let Ez_h ← deref_Ez_h
  let Pi_E_z_h := env.interpolate (Function.create V_star) Ez_h
  set_coefficient .eta_T 0 (.function Ez_h)
  set_coefficient .eta_T 1 (.function r.1)
  set_coefficient .eta_T 2 (.facet_function r.2)
  set_coefficient .eta_T 3 (.function Pi_E_z_h)
  modify_state (fun s => { s with indicators := env.assemble_vector s.eta_T })
  modify_state (fun s => { s with indicators := vector_abs s.indicators })

/-- A member function that never raises the "not implemented" error. -/
def never_not_implemented {α : Type} (m : M α) : Prop :=
  ∀ s t, m s ≠ .threw .not_implemented t

/-- A member function that leaves the observation `f` of the state as it was, whether it
returns or raises. -/
def keeps {α β : Type} (f : State → β) (m : M α) : Prop :=
  ∀ s, f (m s).state = f s

/-- The extrapolated dual that `estimate_error` computes (lines 67-71): the dual solve on
the zero function of `V = a_star.function_space(1)` with the given boundary conditions,
its extrapolation into `E`, and the loop of `compute_extrapolation` over the boundary
conditions. -/
def extrapolated_dual (env : Collaborators) (s : State) (V : FunctionSpace)
    (bcs : List DirichletBC) : Function :=
  bcs.foldl (apply_extrapolation_bc env)
    (env.extrapolate (Function.create s.E)
      (env.variational_solve s.a_star s.L_star bcs (Function.create V)))

/-- Closed form of the residual form after `estimate_error(u, bcs)`: the extrapolated
dual in the last slot and, for a linear problem, `u` in the slot before it. -/
def residual_after_estimate (env : Collaborators) (s : State) (V : FunctionSpace)
    (bcs : List DirichletBC) (u : Function) : Form :=
  let n := s.residual.num_coefficients
  let with_dual :=
    s.residual.coefficients.set (n - 1) (Coefficient.function (extrapolated_dual env s V bcs))
  { s.residual with
    coefficients :=
      if s.is_linear then with_dual.set (n - 2) (Coefficient.function u) else with_dual }

/-- Closed form of the indicator form after the four calls of lines 178-181, for the
stored dual `e`, the residuals `r` and the dual trial space `V_star`. -/
def eta_T_after (env : Collaborators) (s : State) (r : Function × SpecialFacetFunction)
    (V_star : FunctionSpace) (e : Function) : Form :=
  { s.eta_T with
    coefficients :=
      (((s.eta_T.coefficients.set 0 (Coefficient.function e)).set 1
        (Coefficient.function r.1)).set 2 (Coefficient.facet_function r.2)).set 3
        (Coefficient.function (env.interpolate (Function.create V_star) e)) }

/-- The index that the specification gives for the cone function of local facet
`local_facet` on cell `k`: position `local_cone_dim - (dim + 1) + local_facet` of the block
of cell `k`, which starts at `local_cone_dim * k`. -/
def cone_index (local_cone_dim dim k local_facet : Nat) : Nat :=
  local_cone_dim * k + (local_cone_dim - (dim + 1) + local_facet)

/-- An observation of the state that depends neither on the three forms that the residual
passes write (`L_R_T`, `a_R_dT`, `L_R_dT`) nor on the count of local solves. -/
def pass_independent {β : Type} (f : State → β) : Prop :=
  (∀ (s : State) (F : Form), f (s.with_form .L_R_T F) = f s) ∧
  (∀ (s : State) (F : Form), f (s.with_form .a_R_dT F) = f s) ∧
  (∀ (s : State) (F : Form), f (s.with_form .L_R_dT F) = f s) ∧
  (∀ (s : State) (n : Nat), f { s with solves := n } = f s)

/-! ## Lifetime of the attached objects

A form refers to its coefficients: `set_coefficient(i, f)` takes `f` by reference. A
`Coefficient` of the model is the value of the referent when it was attached; no referent
is changed while it is attached, so that value is what the form sees as long as the
referent lives. The layer below runs the same member functions and records, next to the
state, which slots refer to an object that dies inside `compute_indicators` and which slots
are left referring to a destroyed object. -/

/-- The objects attached to a form whose lifetime ends inside `compute_indicators`: the
locals `R_T` and `Pi_E_z_h`, the heap object `R_dT` (deleted at line 192) and the local
`b_e` of one pass of the facet loop. -/
inductive LocalObject where
  | R_T | R_dT | Pi_E_z_h | b_e
deriving DecidableEq, Repr

/-- A coefficient slot: a form and an index. -/
abbrev Slot : Type := FormId × Nat

/-- The state together with the record of the referents: `bound` lists the slots that
refer to a living object of the call, `dangling` the slots whose referent has been
destroyed. -/
structure Tracked where
  state : State
  bound : List (Slot × LocalObject)
  dangling : List Slot
deriving DecidableEq, Repr

/-- The record after a successful `set_coefficient` on `slot`: the slot refers to the
object just passed, which is alive; `owner` names it when it is an object of the call. -/
def Tracked.attached (w : Tracked) (s : State) (slot : Slot) (owner : Option LocalObject) :
    Tracked :=
  { state := s
    bound := w.bound.filter (fun b => b.1 ≠ slot) ++
      (match owner with
       | some x => [(slot, x)]
       | none => [])
    dangling := w.dangling.filter (fun d => d ≠ slot) }

/-- The record after the object `x` is destroyed: every slot that referred to it dangles. -/
def Tracked.end_of_life (w : Tracked) (x : LocalObject) : Tracked :=
  { w with
    bound := w.bound.filter (fun b => b.2 ≠ x)
    dangling := w.dangling ++ (w.bound.filter (fun b => b.2 = x)).map Prod.fst }

/-- The slot `i` of the form `id` holds the coefficient `c`: `c` was attached there and its
referent has not been destroyed. -/
def Tracked.holds (w : Tracked) (id : FormId) (i : Nat) (c : Coefficient) : Prop :=
  (w.state.form id).coefficients[i]? = some c ∧ (id, i) ∉ w.dangling

/-- Outcome of a member function, with the record of the referents. -/
inductive TResult (α : Type) where
  | ok (a : α) (w : Tracked)
  | threw (e : Err) (w : Tracked)
deriving DecidableEq, Repr

/-- The state and record an outcome carries. -/
def TResult.world {α : Type} : TResult α → Tracked
  | .ok _ w => w
  | .threw _ w => w

/-- The outcome without the record of the referents. -/
def TResult.erase {α : Type} : TResult α → Result α
  | .ok a w => .ok a w.state
  | .threw e w => .threw e w.state

/-- A member function of `ErrorControl`, with the record of the referents. -/
def MT (α : Type) : Type := Tracked → TResult α

/-- Normal return. -/
def MT.pure {α : Type} (a : α) : MT α := fun w => .ok a w

/-- Sequencing: an exception of the first part skips the second. -/
def MT.bind {α β : Type} (m : MT α) (f : α → MT β) : MT β := fun w =>
  match m w with
  | .ok a t => f a t
  | .threw e t => .threw e t

instance : Monad MT where
  pure := MT.pure
  bind := MT.bind

/-- A step that attaches nothing and destroys nothing: the record is unchanged. -/
def lift {α : Type} (m : M α) : MT α := fun w =>
  match m w.state with
  | .ok a s => .ok a { w with state := s }
  | .threw e s => .threw e { w with state := s }

/-- The call `form->set_coefficient(i, c)`, where `owner` names the object passed when it
is an object of the call. -/
def attach (id : FormId) (i : Nat) (c : Coefficient) (owner : Option LocalObject) :
    MT Unit := fun w =>
  match set_coefficient id i c w.state with
  | .ok _ s => .ok () (w.attached s (id, i) owner)
  | .threw e s => .threw e { w with state := s }

/-- The statement `if (_is_linear) act;`. -/
def if_linear_tracked (act : MT Unit) : MT Unit := fun w =>
  if w.state.is_linear then act w else .ok () w

/-- A block with the local objects `xs`: they are destroyed when the block is left, by a
normal exit or by an exception. -/
def scope {α : Type} (xs : List LocalObject) (m : MT α) : MT α := fun w =>
  match m w with
  | .ok a t => .ok a (xs.foldl Tracked.end_of_life t)
  | .threw e t => .threw e (xs.foldl Tracked.end_of_life t)

/-- The statement `delete x;`. -/
def delete_object (x : LocalObject) : MT Unit := fun w => .ok () (w.end_of_life x)

/-- The member function `compute_cell_residual` (lines 212-263): `u` is an object of the
caller of `compute_indicators`, which outlives the call. -/
def compute_cell_residual_tracked (env : Collaborators) (R_T u : Function) : MT Function := do
  let s ← lift get_state
  if_linear_tracked
    (attach .L_R_T (usub s.L_R_T.num_coefficients 2) (.function u) none)
  let t ← lift get_state
  let V := R_T.function_space
  lift (cell_residual_loop env t.a_R_T t.L_R_T V.space_dimension
    (List.range V.mesh.num_cells) R_T)

/-- The loop over the local facets of `compute_facet_residual` (lines 316-363): `b_e` is
declared in the body of the loop and dies at the end of each pass. -/
def facet_residual_loop_tracked (env : Collaborators) (V : FunctionSpace) (N : Nat)
    (dim : Nat) (local_cone_dim : Nat) (num_cells : Nat) (L_R_dT_num_coefficients : Nat) :
    List Nat → SpecialFacetFunction → MT SpecialFacetFunction
  | [], R_dT => pure R_dT
  | local_facet :: rest, R_dT => do
    let R_dT ← scope [.b_e] (do
      let s ← lift get_state
      let b_e := cone_function s.C local_cone_dim dim num_cells local_facet
      attach .a_R_dT 0 (.function b_e) (some .b_e)
      attach .L_R_dT (usub L_R_dT_num_coefficients 1) (.function b_e) (some .b_e)
      let t ← lift get_state
      lift (facet_residual_cell_loop env t.a_R_dT t.L_R_dT V N local_facet
        (List.range V.mesh.num_cells) R_dT))
    facet_residual_loop_tracked env V N dim local_cone_dim num_cells L_R_dT_num_coefficients
      rest R_dT

/-- The member function `compute_facet_residual` (lines 265-365): `u` is an object of the
caller of `compute_indicators`, `R_T` is the local of `compute_indicators`. -/
def compute_facet_residual_tracked (env : Collaborators) (R_dT : SpecialFacetFunction)
    (u R_T : Function) : MT SpecialFacetFunction := do
  match R_dT.f_e[0]? with
  | none => lift (raise .out_of_range)
  | some f0 =>
    let V := f0.function_space
    let N := V.space_dimension
    let dim := V.mesh.topology_dim
    let s ← lift get_state
    let local_cone_dim := s.C.space_dimension
    let L_R_dT_num_coefficients := s.L_R_dT.num_coefficients
    if_linear_tracked
      (attach .L_R_dT (usub L_R_dT_num_coefficients 3) (.function u) none)
    attach .L_R_dT (usub L_R_dT_num_coefficients 2) (.function R_T) (some .R_T)
    let num_cells := V.mesh.num_cells
    facet_residual_loop_tracked env V N dim local_cone_dim num_cells
      L_R_dT_num_coefficients (List.range (dim + 1)) R_dT

/-- The member function `residual_representation` (lines 195-210). -/
def residual_representation_tracked (env : Collaborators) (R_T : Function)
    (R_dT : SpecialFacetFunction) (u : Function) :
    MT (Function × SpecialFacetFunction) := do
  let R_T ← compute_cell_residual_tracked env R_T u
  let R_dT ← compute_facet_residual_tracked env R_dT u R_T
  pure (R_T, R_dT)

/-- The member function `compute_indicators` up to the end of line 187: the indicator
form has been assembled and the absolute values taken; every object of the call is still
alive. `*_Ez_h` is owned by the orchestrator. -/
def compute_indicators_body (env : Collaborators) (u : Function) : MT Unit := do
  let V_T ← lift (function_space .a_R_T 1)
  let R_T := Function.create V_T
  let V_dT ← lift (function_space .a_R_dT 1)
  let f_e := facet_family R_T V_dT
  let f0 := f_e.headD (Function.create V_dT)
  let R_dT ← lift (special_facet_function f_e f0)
  let r ← residual_representation_tracked env R_T R_dT u
  let V_star ← lift (function_space .a_star 1)
  let Ez_h ← lift deref_Ez_h
  let Pi_E_z_h := env.interpolate (Function.create V_star) Ez_h
  attach .eta_T 0 (.function Ez_h) none
  attach .eta_T 1 (.function r.1) (some .R_T)
  attach .eta_T 2 (.facet_function r.2) (some .R_dT)
  attach .eta_T 3 (.function Pi_E_z_h) (some .Pi_E_z_h)
  lift (modify_state (fun s => { s with indicators := env.assemble_vector s.eta_T }))
  lift (modify_state (fun s => { s with indicators := vector_abs s.indicators }))

/-- The member function `compute_indicators` (lines 149-193) with the lifetimes: after
line 187, `delete R_dT` (line 192), then the locals `Pi_E_z_h` and `R_T` die at the closing
brace; an exception skips the `delete` and unwinds the locals. -/
def compute_indicators_tracked (env : Collaborators) (u : Function) : MT Unit :=
  scope [.Pi_E_z_h, .R_T] (do
    compute_indicators_body env u
    delete_object .R_dT)

/-- The member function `m`, run with the record of the referents, does to the state what
`m0` does. -/
def simulates {α : Type} (m : MT α) (m0 : M α) : Prop :=
  ∀ w, (m w).erase = m0 w.state

/-! ## A concrete orchestrator, used to instantiate the theorems -/

namespace Example

/-- One triangle in the plane. -/
def mesh : Mesh := { geometry_dim := 2, topology_dim := 2, num_cells := 1 }

/-- One triangle of a surface in space: geometric dimension 3, topological dimension 2. -/
def surface_mesh : Mesh := { geometry_dim := 3, topology_dim := 2, num_cells := 1 }

/-- A space on the mesh `m` with one local degree of freedom, of the given label and value
rank. -/
def space (m : Mesh) (label value_rank : Nat) : FunctionSpace :=
  { label := label, mesh := m, space_dimension := 1, value_rank := value_rank,
    value_dimension := 1, component := [], dim := 1, cell_dofs := [[0]] }

/-- The cone space on the mesh `m`: three local degrees of freedom on the one cell. -/
def cone_space (m : Mesh) : FunctionSpace :=
  { label := 9, mesh := m, space_dimension := 3, value_rank := 0,
    value_dimension := 1, component := [], dim := 3, cell_dofs := [[0, 1, 2]] }

/-- A cone space for two triangles: three local degrees of freedom on each cell. -/
def cone_space_two_cells : FunctionSpace :=
  { label := 9, mesh := { geometry_dim := 2, topology_dim := 2, num_cells := 2 },
    space_dimension := 3, value_rank := 0, value_dimension := 1, component := [], dim := 6,
    cell_dofs := [[0, 1, 2], [3, 4, 5]] }

/-- The dual space. -/
def V : FunctionSpace := space mesh 1 0

/-- The extrapolation space. -/
def E : FunctionSpace := space mesh 2 0

/-- The space of the cell and facet residuals (scalar-valued). -/
def W : FunctionSpace := space mesh 3 0

/-- A tensor-valued space. -/
def W_tensor : FunctionSpace := space mesh 7 2

/-- The space of the cell and facet residuals on the surface mesh. -/
def W_surface : FunctionSpace := space surface_mesh 3 0

/-- A primal solution on the mesh `m`, with the given coefficient. -/
def primal (m : Mesh) (c : ℚ) : Function :=
  { function_space := space m 1 0, vector := [c] }

/-- A primal solution. -/
def u1 : Function := primal mesh 1

/-- A second primal solution, different from `u1`. -/
def u2 : Function := primal mesh 2

/-- Collaborators: the dense solver solves diagonal systems with non-zero diagonal, the
local matrix is `2 * identity`, the local vector is constant `4`, the assembled vector of
the indicator form is `[-3]`, the extrapolation fills the target with `7`, and applying a
boundary condition overwrites the vector with the label of the space the condition is
built on. -/
def env : Collaborators :=
  { variational_solve := fun _ _ _ z => z
    extrapolate := fun target _ => { target with vector := target.vector.map (fun _ => 7) }
    interpolate := fun target _ => target
    bc_apply := fun bc x => x.map (fun _ => (bc.function_space.label : ℚ))
    assemble_scalar := fun _ => 5
    assemble_vector := fun _ => [-3]
    local_matrix := fun _ _ _ => fun i j => if i = j then 2 else 0
    local_vector := fun _ _ _ => fun _ => 4
    solve := fun _ A b => if ∀ i, A i i ≠ 0 then some (fun i => b i / A i i) else none }

/-- A form with the given function spaces and `n` empty coefficient slots. -/
def form (spaces : List FunctionSpace) (n : Nat) : Form :=
  { function_spaces := spaces, coefficients := List.replicate n .unset }

/-- The residual form as given to the constructor: three slots, the last one holding a
function of the extrapolation space. -/
def residual_form (m : Mesh) : Form :=
  { function_spaces := [],
    coefficients := [.unset, .unset, .function (Function.create (space m 2 0))] }

/-- The facet-residual bilinear form as given to the constructor: slot 0 holds a function
of the cone space. -/
def a_R_dT_form (m : Mesh) (value_rank : Nat) : Form :=
  { function_spaces := [space m (3 + 2 * value_rank) value_rank,
                        space m (3 + 2 * value_rank) value_rank],
    coefficients := [.function (Function.create (cone_space m))] }

/-- The orchestrator on the mesh `m` before any call, for a linear problem, with a
facet-residual space of the given value rank. -/
def initial_on (m : Mesh) (value_rank : Nat) : State :=
  { a_star := form [space m 1 0, space m 1 0] 0, L_star := form [space m 1 0] 0,
    residual := residual_form m,
    a_R_T := form [space m 3 0, space m 3 0] 0, L_R_T := form [space m 3 0] 3,
    a_R_dT := a_R_dT_form m value_rank,
    L_R_dT := form [space m 3 0] 4, eta_T := form [space m 3 0] 4, is_linear := true,
    E := space m 2 0, C := cone_space m, Ez_h := none, indicators := [], solves := 0 }

/-- The orchestrator on the plane mesh, scalar-valued residuals. -/
def initial : State := initial_on mesh 0

/-- The orchestrator on the plane mesh with a tensor-valued facet-residual space. -/
def initial_tensor : State := initial_on mesh 2

/-- A boundary condition on the dual space `V` (no component path), markers `[(3, 1)]`. -/
def bc : DirichletBC :=
  { function_space := V, value := { function_space := V, vector := [6] },
    markers := [(3, 1)] }

/-- The orchestrator after `estimate_error(u1, [])`. -/
def estimated : State := (estimate_error env u1 [] initial).state

/-- The orchestrator after `estimate_error(u1, [])` and then `compute_indicators(u1)`. -/
def indicated : State := (compute_indicators env u1 estimated).state

/-- The orchestrator after `estimate_error(u1, [])`, with the record of the referents:
no slot refers to an object of a call of `compute_indicators`, none dangles. -/
def estimated_tracked : Tracked := { state := estimated, bound := [], dangling := [] }

/-- The orchestrator after `estimate_error(u1, [])` and then `compute_indicators(u1)`, with
the record of the referents. -/
def indicated_tracked : Tracked :=
  (compute_indicators_tracked env u1 estimated_tracked).world

/-- The orchestrator on the surface mesh, after `estimate_error`. -/
def estimated_surface : State :=
  (estimate_error env (primal surface_mesh 1) [] (initial_on surface_mesh 0)).state

end Example

/-! ## The example orchestrator is what the constructor builds -/

theorem create_example (m : Mesh) (value_rank : Nat) :
    create (Example.form [Example.space m 1 0, Example.space m 1 0] 0)
      (Example.form [Example.space m 1 0] 0) (Example.residual_form m)
      (Example.form [Example.space m 3 0, Example.space m 3 0] 0)
      (Example.form [Example.space m 3 0] 3) (Example.a_R_dT_form m value_rank)
      (Example.form [Example.space m 3 0] 4) (Example.form [Example.space m 3 0] 4) true [] =
      .ok (Example.initial_on m value_rank) := by
  rfl

/-! ## Lemmas on the cone indices -/

theorem facet_dof_exact (lcd dim num_cells l k : Nat) (hl : l ≤ dim) (hk : k < num_cells)
    (hlcd : dim + 1 ≤ lcd) (hfit : (lcd : Int) * num_cells ≤ UINT_RANGE) :
    (facet_dof lcd dim k l : Int) = (lcd : Int) * ((k : Int) + 1) - ((dim : Int) + 1) + l := by
  unfold facet_dof
  have h1 : (lcd : Int) * ((k : Int) + 1) ≤ (lcd : Int) * num_cells := by
    apply mul_le_mul_of_nonneg_left _ (by positivity)
    exact_mod_cast hk
  have h2 : (lcd : Int) ≤ (lcd : Int) * ((k : Int) + 1) := by
    have : (0 : Int) ≤ (lcd : Int) * k := by positivity
    linarith
  have hl' : (l : Int) ≤ dim := by exact_mod_cast hl
  have hd' : (dim : Int) + 1 ≤ lcd := by exact_mod_cast hlcd
  have h0 : (0 : Int) ≤ (lcd : Int) * ((k : Int) + 1) - ((dim : Int) + 1) + l := by
    have : (0 : Int) ≤ l := by positivity
    linarith
  have h3 : (lcd : Int) * ((k : Int) + 1) - ((dim : Int) + 1) + l < UINT_RANGE := by linarith
  rw [Int.toNat_of_nonneg (Int.emod_nonneg _ (by unfold UINT_RANGE; norm_num))]
  exact Int.emod_eq_of_lt h0 h3

/-! ## Lemmas on the regularisation -/

theorem foldl_step_matrix {N : Nat} (l : List (Fin N)) (s : LocalSystem N) (i j : Fin N) :
    (l.foldl nonsingularize_step s).1 i j =
      if i = j ∧ i ∈ l ∧ |s.1 i i| < TOL then 1 else s.1 i j := by
  induction l generalizing s with
  | nil => simp
  | cons k l ih =>
    rw [List.foldl_cons, ih]
    unfold nonsingularize_step
    by_cases hk : |s.1 k k| < TOL
    · simp only [hk, if_true]
      by_cases hik : i = k
      · subst hik
        by_cases hij : i = j
        · subst hij
          simp [hk]
        · simp [hij, Function.update_noteq (Ne.symm hij)]
      · simp [Function.update_noteq hik, hik]
    · simp only [hk, if_false]
      by_cases hik : i = k
      · subst hik
        simp [hk]
      · simp [hik]

theorem foldl_step_rhs {N : Nat} (l : List (Fin N)) (s : LocalSystem N) (i : Fin N) :
    (l.foldl nonsingularize_step s).2 i =
      if i ∈ l ∧ |s.1 i i| < TOL then 0 else s.2 i := by
  induction l generalizing s with
  | nil => simp
  | cons k l ih =>
    rw [List.foldl_cons, ih]
    unfold nonsingularize_step
    by_cases hk : |s.1 k k| < TOL
    · simp only [hk, if_true]
      by_cases hik : i = k
      · subst hik
        simp [hk]
      · simp [Function.update_noteq hik, hik]
    · simp only [hk, if_false]
      by_cases hik : i = k
      · subst hik
        simp [hk]
      · simp [hik]

/-- Closed form of the regularised matrix. -/
theorem nonsingularize_matrix {N : Nat} (A : Matrix (Fin N) (Fin N) ℚ) (b : Fin N → ℚ)
    (i j : Fin N) :
    (nonsingularize A b).1 i j = if i = j ∧ |A i i| < TOL then 1 else A i j := by
  unfold nonsingularize
  rw [foldl_step_matrix]
  simp [List.mem_finRange]

/-- Closed form of the regularised right-hand side. -/
theorem nonsingularize_rhs {N : Nat} (A : Matrix (Fin N) (Fin N) ℚ) (b : Fin N → ℚ)
    (i : Fin N) :
    (nonsingularize A b).2 i = if |A i i| < TOL then 0 else b i := by
  unfold nonsingularize
  rw [foldl_step_rhs]
  simp [List.mem_finRange]


/-! ## Lemmas on sequencing -/

theorem bind_apply {α β : Type} (m : M α) (f : α → M β) (s : State) :
    (m >>= f) s = match m s with
      | .ok a t => f a t
      | .threw e t => .threw e t := rfl

theorem pure_apply {α : Type} (a : α) (s : State) : (pure a : M α) s = .ok a s := rfl

theorem bind_eq_ok {α β : Type} {m : M α} {f : α → M β} {s u : State} {b : β}
    (h : (m >>= f) s = .ok b u) : ∃ a t, m s = .ok a t ∧ f a t = .ok b u := by
  rw [bind_apply] at h
  cases hm : m s with
  | ok a t => rw [hm] at h; exact ⟨a, t, rfl, h⟩
  | threw e t => rw [hm] at h; cases h

theorem function_space_eq_ok {id : FormId} {i : Nat} {s t : State} {V : FunctionSpace}
    (h : function_space id i s = .ok V t) :
    t = s ∧ (s.form id).function_spaces[i]? = some V := by
  unfold function_space at h
  cases hg : (s.form id).function_spaces[i]? with
  | none => rw [hg] at h; cases h
  | some W => rw [hg] at h; cases h; exact ⟨rfl, rfl⟩

theorem set_coefficient_eq_ok {id : FormId} {i : Nat} {c : Coefficient} {s t : State}
    (h : set_coefficient id i c s = .ok () t) :
    i < (s.form id).coefficients.length ∧
      t = s.with_form id { (s.form id) with coefficients := (s.form id).coefficients.set i c } := by
  unfold set_coefficient Form.set_coefficient at h
  by_cases hi : i < (s.form id).coefficients.length
  · simp only [hi, if_true] at h
    cases h
    exact ⟨hi, rfl⟩
  · simp only [hi, if_false] at h
    cases h

theorem deref_Ez_h_eq_ok {s t : State} {e : Function} (h : deref_Ez_h s = .ok e t) :
    t = s ∧ s.Ez_h = some e := by
  unfold deref_Ez_h at h
  cases hg : s.Ez_h with
  | none => rw [hg] at h; cases h
  | some W => rw [hg] at h; cases h; exact ⟨rfl, rfl⟩

theorem never_bind {α β : Type} {m : M α} {f : α → M β} (hm : never_not_implemented m)
    (hf : ∀ a, never_not_implemented (f a)) : never_not_implemented (m >>= f) := by
  intro s t h
  rw [bind_apply] at h
  cases hms : m s with
  | ok a v => rw [hms] at h; exact hf a v t h
  | threw e v =>
    rw [hms] at h
    cases h
    exact hm s t hms

theorem never_pure {α : Type} (a : α) : never_not_implemented (pure a : M α) := by
  intro s t h
  cases h

theorem never_get_state : never_not_implemented get_state := by
  intro s t h
  cases h

theorem never_modify_state (f : State → State) : never_not_implemented (modify_state f) := by
  intro s t h
  cases h

theorem never_function_space (id : FormId) (i : Nat) :
    never_not_implemented (function_space id i) := by
  intro s t h
  unfold function_space at h
  split at h <;> cases h

theorem never_set_coefficient (id : FormId) (i : Nat) (c : Coefficient) :
    never_not_implemented (set_coefficient id i c) := by
  intro s t h
  unfold set_coefficient at h
  split at h <;> cases h

theorem never_deref_Ez_h : never_not_implemented deref_Ez_h := by
  intro s t h
  unfold deref_Ez_h at h
  split at h <;> cases h

theorem never_local_solve (env : Collaborators) (N : Nat) (A : Matrix (Fin N) (Fin N) ℚ)
    (b : Fin N → ℚ) : never_not_implemented (local_solve env N A b) := by
  intro s t h
  unfold local_solve at h
  split at h <;> cases h

theorem never_if_linear {act : M Unit} (h : never_not_implemented act) :
    never_not_implemented (if_linear act) := by
  intro s t hs
  unfold if_linear at hs
  split at hs
  · exact h s t hs
  · cases hs

theorem never_raise {α : Type} (e : Err) (he : e ≠ .not_implemented) :
    never_not_implemented (raise e : M α) := by
  intro s t h
  cases h
  exact he rfl

theorem never_cell_residual_loop (env : Collaborators) (a L : Form) (N : Nat)
    (cells : List Nat) (R_T : Function) :
    never_not_implemented (cell_residual_loop env a L N cells R_T) := by
  induction cells generalizing R_T with
  | nil => exact never_pure _
  | cons cell cells ih =>
    unfold cell_residual_loop
    exact never_bind (never_local_solve _ _ _ _) (fun x => ih _)

theorem never_facet_residual_cell_loop (env : Collaborators) (a L : Form)
    (V : FunctionSpace) (N local_facet : Nat) (cells : List Nat) (R_dT : SpecialFacetFunction) :
    never_not_implemented (facet_residual_cell_loop env a L V N local_facet cells R_dT) := by
  induction cells generalizing R_dT with
  | nil => exact never_pure _
  | cons cell cells ih =>
    unfold facet_residual_cell_loop
    refine never_bind (never_local_solve _ _ _ _) (fun x => ?_)
    dsimp only
    split
    · exact never_raise _ (by decide)
    · exact ih _

theorem never_facet_residual_loop (env : Collaborators) (V : FunctionSpace)
    (N dim lcd num_cells n : Nat) (facets : List Nat) (R_dT : SpecialFacetFunction) :
    never_not_implemented (facet_residual_loop env V N dim lcd num_cells n facets R_dT) := by
  induction facets generalizing R_dT with
  | nil => exact never_pure _
  | cons l rest ih =>
    unfold facet_residual_loop
    refine never_bind never_get_state (fun s => ?_)
    refine never_bind (never_set_coefficient _ _ _) (fun _ => ?_)
    refine never_bind (never_set_coefficient _ _ _) (fun _ => ?_)
    refine never_bind never_get_state (fun t => ?_)
    exact never_bind (never_facet_residual_cell_loop _ _ _ _ _ _ _ _) (fun R => ih R)

theorem never_compute_cell_residual (env : Collaborators) (R_T u : Function) :
    never_not_implemented (compute_cell_residual env R_T u) := by
  unfold compute_cell_residual
  refine never_bind never_get_state (fun s => ?_)
  refine never_bind (never_if_linear (never_set_coefficient _ _ _)) (fun _ => ?_)
  exact never_bind never_get_state (fun t => never_cell_residual_loop _ _ _ _ _ _)

theorem never_compute_facet_residual (env : Collaborators) (R_dT : SpecialFacetFunction)
    (u R_T : Function) : never_not_implemented (compute_facet_residual env R_dT u R_T) := by
  unfold compute_facet_residual
  split
  · exact never_raise _ (by decide)
  · refine never_bind never_get_state (fun s => ?_)
    refine never_bind (never_if_linear (never_set_coefficient _ _ _)) (fun _ => ?_)
    exact never_bind (never_set_coefficient _ _ _)
      (fun _ => never_facet_residual_loop _ _ _ _ _ _ _ _ _)

theorem never_residual_representation (env : Collaborators) (R_T : Function)
    (R_dT : SpecialFacetFunction) (u : Function) :
    never_not_implemented (residual_representation env R_T R_dT u) := by
  unfold residual_representation
  refine never_bind (never_compute_cell_residual _ _ _) (fun R => ?_)
  exact never_bind (never_compute_facet_residual _ _ _ _) (fun _ => never_pure _)

theorem facet_family_head (R_T : Function) (V : FunctionSpace) (d : Function) :
    (facet_family R_T V).headD d = Function.create V := by
  simp [facet_family, List.range_succ_eq_map]

/-- What `compute_indicators` does once `R_T` and `R_dT` are computed (lines 173-187): on
a normal return the stored dual `e` exists, the indicator form holds the four coefficients
and the indicators are the absolute values of the vector assembled from it. -/
theorem indicators_tail_eq_ok (env : Collaborators) (r : Function × SpecialFacetFunction)
    (s u : State)
    (h : (function_space .a_star 1 >>= fun V_star =>
      deref_Ez_h >>= fun Ez_h =>
      set_coefficient .eta_T 0 (.function Ez_h) >>= fun _ =>
      set_coefficient .eta_T 1 (.function r.1) >>= fun _ =>
      set_coefficient .eta_T 2 (.facet_function r.2) >>= fun _ =>
      set_coefficient .eta_T 3
        (.function (env.interpolate (Function.create V_star) Ez_h)) >>= fun _ =>
      modify_state (fun s => { s with indicators := env.assemble_vector s.eta_T }) >>= fun _ =>
      modify_state (fun s => { s with indicators := vector_abs s.indicators })) s = .ok () u) :
    ∃ V_star e, s.a_star.function_spaces[1]? = some V_star ∧ s.Ez_h = some e ∧
      3 < s.eta_T.coefficients.length ∧
      u = { s with
            eta_T := eta_T_after env s r V_star e
            indicators := vector_abs (env.assemble_vector (eta_T_after env s r V_star e)) } := by
  obtain ⟨V, t1, h1, h⟩ := bind_eq_ok h
  obtain ⟨e, t2, h2, h⟩ := bind_eq_ok h
  obtain ⟨_, t3, h3, h⟩ := bind_eq_ok h
  obtain ⟨_, t4, h4, h⟩ := bind_eq_ok h
  obtain ⟨_, t5, h5, h⟩ := bind_eq_ok h
  obtain ⟨_, t6, h6, h⟩ := bind_eq_ok h
  obtain ⟨_, t7, h7, h⟩ := bind_eq_ok h
  obtain ⟨rfl, hV⟩ := function_space_eq_ok h1
  obtain ⟨rfl, hE⟩ := deref_Ez_h_eq_ok h2
  obtain ⟨_, rfl⟩ := set_coefficient_eq_ok h3
  obtain ⟨_, rfl⟩ := set_coefficient_eq_ok h4
  obtain ⟨_, rfl⟩ := set_coefficient_eq_ok h5
  obtain ⟨h3lt, rfl⟩ := set_coefficient_eq_ok h6
  cases h7
  cases h
  refine ⟨V, e, hV, hE, ?_, ?_⟩
  · simpa [State.form, State.with_form] using h3lt
  · simp [State.form, State.with_form, eta_T_after]

/-! ## Lemmas on what the residual passes leave alone -/

theorem keeps_bind {α β γ : Type} {f : State → γ} {m : M α} {g : α → M β}
    (hm : keeps f m) (hg : ∀ a, keeps f (g a)) : keeps f (m >>= g) := by
  intro s
  have h1 := hm s
  rw [bind_apply]
  cases hms : m s with
  | ok a t =>
    rw [hms] at h1
    have h2 := hg a t
    simp only [Result.state] at h1
    rw [← h1]
    exact h2
  | threw e t =>
    rw [hms] at h1
    exact h1

theorem keeps_of_eq_ok {α γ : Type} {f : State → γ} {m : M α} (hm : keeps f m)
    {s t : State} {a : α} (h : m s = .ok a t) : f t = f s := by
  have := hm s
  rw [h] at this
  exact this

theorem keeps_pure {α γ : Type} (f : State → γ) (a : α) : keeps f (pure a : M α) :=
  fun _ => rfl

theorem keeps_raise {α γ : Type} (f : State → γ) (e : Err) : keeps f (raise e : M α) :=
  fun _ => rfl

theorem keeps_get_state {γ : Type} (f : State → γ) : keeps f get_state :=
  fun _ => rfl

theorem keeps_if_linear {γ : Type} {f : State → γ} {act : M Unit} (h : keeps f act) :
    keeps f (if_linear act) := by
  intro s
  unfold if_linear
  split
  · exact h s
  · rfl

theorem special_facet_function_eq_ok {f_e : List Function} {f0 : Function} {s t : State}
    {R : SpecialFacetFunction} (h : special_facet_function f_e f0 s = .ok R t) :
    t = s ∧ R.f_e = f_e := by
  unfold special_facet_function at h
  split at h
  · cases h; exact ⟨rfl, rfl⟩
  · split at h
    · cases h; exact ⟨rfl, rfl⟩
    · cases h

/-! ## Lemmas on `estimate_error` -/

theorem usub_of_le (a b : Nat) (hb : b ≤ a) (ha : (a : Int) < UINT_RANGE) :
    usub a b = a - b := by
  unfold usub
  have h0 : (0 : Int) ≤ (a : Int) - b := by
    have : (b : Int) ≤ a := by exact_mod_cast hb
    linarith
  have h1 : (a : Int) - b < UINT_RANGE := by
    have : (0 : Int) ≤ b := by positivity
    linarith
  rw [Int.emod_eq_of_lt h0 h1]
  omega

theorem foldl_push_back (bcs acc : List DirichletBC) :
    bcs.foldl (fun acc bc => acc ++ [bc]) acc = acc ++ bcs := by
  induction bcs generalizing acc with
  | nil => simp
  | cons b bs ih => simp [ih]

/-- The outcome of `estimate_error`, computed. -/
theorem estimate_error_eval (env : Collaborators) (u : Function)
    (bcs : List DirichletBC) (s : State) (V : FunctionSpace)
    (hV : s.a_star.function_spaces[1]? = some V)
    (hn : 2 ≤ s.residual.num_coefficients)
    (hfit : (s.residual.num_coefficients : Int) < UINT_RANGE) :
    estimate_error env u bcs s =
      .ok (env.assemble_scalar (residual_after_estimate env s V bcs u))
        { s with
          Ez_h := some (extrapolated_dual env s V bcs)
          residual := residual_after_estimate env s V bcs u } := by
  have e1 : function_space .a_star 1 s = .ok V s := by
    simp [function_space, State.form, hV]
  have u1 := usub_of_le _ 1 (by omega) hfit
  have u2 := usub_of_le _ 2 hn hfit
  unfold Form.num_coefficients at hn u1 u2
  have h1 : s.residual.coefficients.length - 1 < s.residual.coefficients.length := by omega
  have h2 : s.residual.coefficients.length - 2 < s.residual.coefficients.length := by omega
  unfold estimate_error residual_after_estimate
  cases hl : s.is_linear <;>
    simp [bind_apply, e1, compute_dual, compute_extrapolation, get_state, modify_state,
      foldl_push_back, pure_apply, deref_Ez_h, Form.num_coefficients, u1, u2,
      set_coefficient, Form.set_coefficient, State.form, State.with_form, if_linear, hl,
      h1, h2, extrapolated_dual]

/-! ## C1: the indicators are absolute values -/

/-- C1: whenever `compute_indicators` returns, the indicator vector has the length of the
vector assembled from the indicator form, each entry is the absolute value of the
corresponding assembled entry, and every entry is non-negative. -/
theorem compute_indicators_abs (env : Collaborators) (u : Function) (s t : State)
    (h : compute_indicators env u s = .ok () t) :
    t.indicators.length = (env.assemble_vector t.eta_T).length ∧
    (∀ i : Nat, t.indicators[i]? = ((env.assemble_vector t.eta_T)[i]?).map (fun x => |x|)) ∧
    (∀ x ∈ t.indicators, 0 ≤ x) := by
  unfold compute_indicators at h
  obtain ⟨V_T, t1, h1, h⟩ := bind_eq_ok h
  obtain ⟨V_dT, t2, h2, h⟩ := bind_eq_ok h
  obtain ⟨R_dT, t3, h3, h⟩ := bind_eq_ok h
  obtain ⟨r, t4, h4, h⟩ := bind_eq_ok h
  obtain ⟨V_star, e, _, _, _, rfl⟩ := indicators_tail_eq_ok env r t4 t h
  refine ⟨by simp [vector_abs], fun i => by simp [vector_abs], ?_⟩
  intro x hx
  simp only [vector_abs, List.mem_map] at hx
  obtain ⟨y, _, rfl⟩ := hx
  exact abs_nonneg y

/-- C1, witness: in the example, `compute_indicators(u1)` after `estimate_error(u1, [])`
returns and the assembled vector `[-3]` becomes the indicator vector `[3]`. -/
theorem compute_indicators_abs_witness :
    Example.indicated.indicators = [3] ∧
    Example.indicated.indicators.length =
      (Example.env.assemble_vector Example.indicated.eta_T).length ∧
    (∀ i : Nat, Example.indicated.indicators[i]? =
      ((Example.env.assemble_vector Example.indicated.eta_T)[i]?).map (fun x => |x|)) ∧
    (∀ x ∈ Example.indicated.indicators, 0 ≤ x) :=
  ⟨by decide!, compute_indicators_abs Example.env Example.u1 Example.estimated
    Example.indicated (by decide!)⟩

/-! ## C2: tensor-valued facet residuals -/

/-- C2: when the facet-residual function space `a_R_dT.function_space(1)` has value rank 2
or more, `compute_indicators` raises the "not implemented" error in the very state it was
called in: no form, no indicator entry and no solve count has changed. When the value rank
is 0 or 1 the "not implemented" error is not raised. -/
theorem compute_indicators_tensor_valued (env : Collaborators) (u : Function) (s : State)
    (V_T V_dT : FunctionSpace)
    (hT : s.a_R_T.function_spaces[1]? = some V_T)
    (hdT : s.a_R_dT.function_spaces[1]? = some V_dT) :
    (2 ≤ V_dT.value_rank → compute_indicators env u s = .threw .not_implemented s) ∧
    (V_dT.value_rank ≤ 1 → ∀ t, compute_indicators env u s ≠ .threw .not_implemented t) := by
  have e1 : function_space .a_R_T 1 s = .ok V_T s := by
    simp [function_space, State.form, hT]
  have e2 : function_space .a_R_dT 1 s = .ok V_dT s := by
    simp [function_space, State.form, hdT]
  constructor
  · intro hr
    unfold compute_indicators
    rw [bind_apply, e1]
    dsimp only
    rw [bind_apply, e2]
    dsimp only
    rw [bind_apply, facet_family_head]
    have h0 : ¬ (Function.create V_dT).value_rank = 0 := by
      simp only [Function.create, Function.value_rank]; omega
    have h1 : ¬ (Function.create V_dT).value_rank = 1 := by
      simp only [Function.create, Function.value_rank]; omega
    simp only [special_facet_function, h0, h1, if_false, raise]
  · intro hr t h
    unfold compute_indicators at h
    rw [bind_apply, e1] at h
    dsimp only at h
    rw [bind_apply, e2] at h
    dsimp only at h
    revert h
    apply never_bind
    · intro v w hv
      rw [facet_family_head] at hv
      unfold special_facet_function at hv
      split at hv
      · cases hv
      · split at hv
        · cases hv
        · rename_i h0 h1
          simp only [Function.create, Function.value_rank] at h0 h1
          omega
    · intro R_dT
      refine never_bind (never_residual_representation _ _ _ _) (fun r => ?_)
      refine never_bind (never_function_space _ _) (fun _ => ?_)
      refine never_bind never_deref_Ez_h (fun _ => ?_)
      refine never_bind (never_set_coefficient _ _ _) (fun _ => ?_)
      refine never_bind (never_set_coefficient _ _ _) (fun _ => ?_)
      refine never_bind (never_set_coefficient _ _ _) (fun _ => ?_)
      refine never_bind (never_set_coefficient _ _ _) (fun _ => ?_)
      exact never_bind (never_modify_state _) (fun _ => never_modify_state _)

/-- C2, witness: the example with a tensor-valued facet-residual space. -/
theorem compute_indicators_tensor_valued_witness :
    compute_indicators Example.env Example.u1 Example.initial_tensor =
      .threw .not_implemented Example.initial_tensor :=
  (compute_indicators_tensor_valued Example.env Example.u1 Example.initial_tensor
    Example.W Example.W_tensor (by decide) (by decide)).1 (by decide)

/-! ## C3: separation of the cone indices -/

/-- C3, counterexample: with local cone dimension 1, topological dimension 1 and two
cells, label 0 on cell 1 and label 1 on cell 0 receive the same index, so indices of
different labels do alias. -/
theorem cone_indices_alias_small_cone :
    facet_dof 1 1 1 0 = facet_dof 1 1 0 1 ∧ ¬ cone_indices_separated 1 1 2 := by
  have h : facet_dof 1 1 1 0 = facet_dof 1 1 0 1 := by decide
  refine ⟨h, fun hs => ?_⟩
  have := hs 0 1 1 0 (by decide) (by decide) (by decide) (by decide) h
  exact absurd this.1 (by decide)

/-- C3, amended: when the local cone dimension is at least `dim + 1` and the
`local_cone_dim * num_cells` cone indices fit in an `unsigned int`, the indices computed
for a fixed label are pairwise distinct over the cells and never equal an index computed
for another label. -/
theorem cone_indices_separated_of_block_layout (local_cone_dim dim num_cells : Nat)
    (hlcd : dim + 1 ≤ local_cone_dim)
    (hfit : (local_cone_dim : Int) * num_cells ≤ UINT_RANGE) :
    cone_indices_separated local_cone_dim dim num_cells := by
  intro l m k j hl hm hk hj h
  have e1 := facet_dof_exact local_cone_dim dim num_cells l k hl hk hlcd hfit
  have e2 := facet_dof_exact local_cone_dim dim num_cells m j hm hj hlcd hfit
  have h' : (facet_dof local_cone_dim dim k l : Int) = facet_dof local_cone_dim dim j m := by
    exact_mod_cast h
  rw [e1, e2] at h'
  have hl' : (l : Int) ≤ dim := by exact_mod_cast hl
  have hm' : (m : Int) ≤ dim := by exact_mod_cast hm
  have hd' : (dim : Int) + 1 ≤ local_cone_dim := by exact_mod_cast hlcd
  have hl0 : (0 : Int) ≤ l := by positivity
  have hm0 : (0 : Int) ≤ m := by positivity
  have hc0 : (0 : Int) ≤ local_cone_dim := by positivity
  have hkj : k = j := by
    rcases lt_trichotomy k j with hlt | heq | hgt
    · exfalso
      have h1 : (k : Int) + 1 ≤ j := by exact_mod_cast hlt
      have h2 := mul_le_mul_of_nonneg_left h1 hc0
      nlinarith
    · exact heq
    · exfalso
      have h1 : (j : Int) + 1 ≤ k := by exact_mod_cast hgt
      have h2 := mul_le_mul_of_nonneg_left h1 hc0
      nlinarith
  subst hkj
  refine ⟨?_, rfl⟩
  have : (l : Int) = m := by linarith
  exact_mod_cast this

/-- C3, witness: cone dimension 3 on triangles (`dim = 2`) with four cells. -/
theorem cone_indices_separated_of_block_layout_witness :
    2 + 1 ≤ 3 ∧ ((3 : Nat) : Int) * (4 : Nat) ≤ UINT_RANGE ∧ cone_indices_separated 3 2 4 :=
  ⟨by decide, by decide,
    cone_indices_separated_of_block_layout 3 2 4 (by decide) (by decide)⟩

/-! ## C4: non-singularity after the regularisation -/

/-- C4, counterexample: the matrix `[[0, 1], [1, 1]]` has a zero diagonal entry and its
regularisation `[[1, 1], [1, 1]]` is singular. -/
theorem nonsingularize_can_stay_singular :
    (!![0, 1; 1, 1] : Matrix (Fin 2) (Fin 2) ℚ) 0 0 = 0 ∧
      (nonsingularize (!![0, 1; 1, 1] : Matrix (Fin 2) (Fin 2) ℚ) ![0, 0]).1.det = 0 := by
  refine ⟨by simp, ?_⟩
  rw [Matrix.det_fin_two]
  simp only [nonsingularize_matrix]
  norm_num [TOL]

/-- C4, amended: when every row of `A` whose diagonal entry is below the tolerance has only
zero off-diagonal entries, and the other rows admit no non-trivial solution of the
homogeneous system among the vectors vanishing on the regularised indices, the regularised
matrix is non-singular. -/
theorem nonsingularize_det_ne_zero {N : Nat} (A : Matrix (Fin N) (Fin N) ℚ) (b : Fin N → ℚ)
    (hrow : ∀ i j : Fin N, |A i i| < TOL → j ≠ i → A i j = 0)
    (hrest : ∀ x : Fin N → ℚ, (∀ i, |A i i| < TOL → x i = 0) →
      (∀ i, ¬ |A i i| < TOL → ∑ j, A i j * x j = 0) → x = 0) :
    (nonsingularize A b).1.det ≠ 0 := by
  intro hdet
  obtain ⟨v, hv, hmul⟩ := Matrix.exists_mulVec_eq_zero_iff.mpr hdet
  apply hv
  have hrowsum : ∀ i, ∑ j, (nonsingularize A b).1 i j * v j = 0 := by
    intro i
    have := congrFun hmul i
    simpa [Matrix.mulVec, Matrix.dotProduct] using this
  have hz : ∀ i, |A i i| < TOL → v i = 0 := by
    intro i hi
    have h := hrowsum i
    rw [Finset.sum_eq_single i] at h
    · simpa [nonsingularize_matrix, hi] using h
    · intro j _ hji
      rw [nonsingularize_matrix]
      simp [Ne.symm hji, hrow i j hi hji]
    · intro hni
      exact absurd (Finset.mem_univ i) hni
  apply hrest v hz
  intro i hi
  have h := hrowsum i
  simpa [nonsingularize_matrix, hi] using h

/-- C4, witness: `A = [[0, 0], [0, 2]]` has a zero diagonal entry, its first row is zero
off the diagonal, and its regularisation `[[1, 0], [0, 2]]` is non-singular. -/
theorem nonsingularize_det_ne_zero_witness :
    |(!![0, 0; 0, 2] : Matrix (Fin 2) (Fin 2) ℚ) 0 0| < TOL ∧
    (nonsingularize (!![0, 0; 0, 2] : Matrix (Fin 2) (Fin 2) ℚ) ![3, 4]).1.det ≠ 0 := by
  refine ⟨by norm_num [TOL], ?_⟩
  apply nonsingularize_det_ne_zero
  · intro i j _ hji
    fin_cases i <;> fin_cases j <;> simp at hji ⊢
  · intro x hz hr
    have h0 : x 0 = 0 := hz 0 (by norm_num [TOL])
    have h1 := hr 1 (by norm_num [TOL])
    simp [Fin.sum_univ_two] at h1
    funext i
    fin_cases i
    · exact h0
    · exact h1

/-! ## C5: the regularised solution component -/

/-- C5, counterexample: for `A = [[0, 1], [0, 1]]` and `b = (5, 1)` the regularised system
is `[[1, 1], [0, 1]] x = (0, 1)`; its solution `x = (-1, 1)` has `x(0) = -1`, although
`A(0,0) = 0`. -/
theorem nonsingularize_solution_component_nonzero :
    |(!![0, 1; 0, 1] : Matrix (Fin 2) (Fin 2) ℚ) 0 0| < TOL ∧
      (nonsingularize (!![0, 1; 0, 1] : Matrix (Fin 2) (Fin 2) ℚ) ![5, 1]).1.mulVec ![-1, 1]
        = (nonsingularize (!![0, 1; 0, 1] : Matrix (Fin 2) (Fin 2) ℚ) ![5, 1]).2 ∧
      (![-1, 1] : Fin 2 → ℚ) 0 ≠ 0 := by
  refine ⟨by norm_num [TOL], ?_, by norm_num⟩
  funext i
  fin_cases i <;>
    simp [Matrix.mulVec, Matrix.dotProduct, Fin.sum_univ_two, nonsingularize_matrix,
      nonsingularize_rhs] <;> norm_num [TOL]

/-- C5, amended: for an index `i` whose diagonal entry is below the tolerance and whose
row has only zero off-diagonal entries, every solution `x` of the regularised system has
`x(i) = 0`. -/
theorem nonsingularize_solution_component_zero {N : Nat} (A : Matrix (Fin N) (Fin N) ℚ)
    (b x : Fin N → ℚ) (i : Fin N) (hi : |A i i| < TOL)
    (hrow : ∀ j : Fin N, j ≠ i → A i j = 0)
    (hx : (nonsingularize A b).1.mulVec x = (nonsingularize A b).2) : x i = 0 := by
  have h := congrFun hx i
  rw [nonsingularize_rhs, if_pos hi] at h
  simp only [Matrix.mulVec, Matrix.dotProduct] at h
  rw [Finset.sum_eq_single i] at h
  · simpa [nonsingularize_matrix, hi] using h
  · intro j _ hji
    rw [nonsingularize_matrix]
    simp [Ne.symm hji, hrow j hji]
  · intro hni
    exact absurd (Finset.mem_univ i) hni

/-- C5, witness: `A = [[0, 0], [0, 2]]`, `b = (3, 4)`; the regularised system
`[[1, 0], [0, 2]] x = (0, 4)` has the solution `x = (0, 2)`, whose component 0 is zero. -/
theorem nonsingularize_solution_component_zero_witness :
    |(!![0, 0; 0, 2] : Matrix (Fin 2) (Fin 2) ℚ) 0 0| < TOL ∧
    (nonsingularize (!![0, 0; 0, 2] : Matrix (Fin 2) (Fin 2) ℚ) ![3, 4]).1.mulVec ![0, 2] =
      (nonsingularize (!![0, 0; 0, 2] : Matrix (Fin 2) (Fin 2) ℚ) ![3, 4]).2 ∧
    (![0, 2] : Fin 2 → ℚ) 0 = 0 := by
  have hi : |(!![0, 0; 0, 2] : Matrix (Fin 2) (Fin 2) ℚ) 0 0| < TOL := by norm_num [TOL]
  have hrow : ∀ j : Fin 2, j ≠ 0 → (!![0, 0; 0, 2] : Matrix (Fin 2) (Fin 2) ℚ) 0 j = 0 := by
    intro j hj
    fin_cases j <;> simp at hj ⊢
  have hx : (nonsingularize (!![0, 0; 0, 2] : Matrix (Fin 2) (Fin 2) ℚ) ![3, 4]).1.mulVec
      ![0, 2] = (nonsingularize (!![0, 0; 0, 2] : Matrix (Fin 2) (Fin 2) ℚ) ![3, 4]).2 := by
    funext i
    fin_cases i <;>
      simp [Matrix.mulVec, Matrix.dotProduct, Fin.sum_univ_two, nonsingularize_matrix,
        nonsingularize_rhs] <;> norm_num [TOL]
  exact ⟨hi, hx, nonsingularize_solution_component_zero _ ![3, 4] ![0, 2] 0 hi hrow hx⟩

/-! ## C6: what the regularisation changes -/

/-- C6: the regularisation sets `A(i,i) = 1` and `b(i) = 0` for every index `i` with
`|A(i,i)| < 1e-10`, leaves every off-diagonal entry of `A` unchanged, leaves `A(i,i)` and
`b(i)` unchanged for every index with `|A(i,i)| >= 1e-10`, and returns a system with no
diagonal entry below the tolerance unchanged. -/
theorem nonsingularize_frame {N : Nat} (A : Matrix (Fin N) (Fin N) ℚ) (b : Fin N → ℚ) :
    (∀ i, |A i i| < TOL → (nonsingularize A b).1 i i = 1 ∧ (nonsingularize A b).2 i = 0) ∧
    (∀ i j, i ≠ j → (nonsingularize A b).1 i j = A i j) ∧
    (∀ i, TOL ≤ |A i i| →
      (nonsingularize A b).1 i i = A i i ∧ (nonsingularize A b).2 i = b i) ∧
    ((∀ i, TOL ≤ |A i i|) → nonsingularize A b = (A, b)) := by
  refine ⟨?_, ?_, ?_, ?_⟩
  · intro i hi
    simp [nonsingularize_matrix, nonsingularize_rhs, hi]
  · intro i j hij
    simp [nonsingularize_matrix, hij]
  · intro i hi
    simp [nonsingularize_matrix, nonsingularize_rhs, not_lt.mpr hi]
  · intro h
    apply Prod.ext
    · funext i j
      simp [nonsingularize_matrix, not_lt.mpr (h i)]
    · funext i
      simp [nonsingularize_rhs, not_lt.mpr (h i)]

/-! ## C7: what `estimate_error` attaches -/

/-- C7: for a residual form with `n >= 2` coefficient slots (`n` a `uint` value) and a
bilinear dual form, `estimate_error(u, bcs)` returns; afterwards slot `n-1` of the
residual form holds the extrapolated dual computed in this call, slot `n-2` holds `u` when
`is_linear` is true and is unchanged when it is false, every other slot is unchanged, and
the value returned is the scalar assembly of the residual form in that final state. -/
theorem estimate_error_attaches (env : Collaborators) (u : Function)
    (bcs : List DirichletBC) (s : State) (V : FunctionSpace)
    (hV : s.a_star.function_spaces[1]? = some V)
    (hn : 2 ≤ s.residual.num_coefficients)
    (hfit : (s.residual.num_coefficients : Int) < UINT_RANGE) :
    ∃ t : State,
      estimate_error env u bcs s = .ok (env.assemble_scalar t.residual) t ∧
      t.Ez_h = some (extrapolated_dual env s V bcs) ∧
      t.residual.num_coefficients = s.residual.num_coefficients ∧
      t.residual.coefficients[s.residual.num_coefficients - 1]? =
        some (.function (extrapolated_dual env s V bcs)) ∧
      (s.is_linear = true →
        t.residual.coefficients[s.residual.num_coefficients - 2]? = some (.function u)) ∧
      (s.is_linear = false →
        t.residual.coefficients[s.residual.num_coefficients - 2]? =
          s.residual.coefficients[s.residual.num_coefficients - 2]?) ∧
      (∀ i, i ≠ s.residual.num_coefficients - 1 → i ≠ s.residual.num_coefficients - 2 →
        t.residual.coefficients[i]? = s.residual.coefficients[i]?) := by
  refine ⟨{ s with
            Ez_h := some (extrapolated_dual env s V bcs)
            residual := residual_after_estimate env s V bcs u },
    estimate_error_eval env u bcs s V hV hn hfit, rfl, ?_, ?_, ?_, ?_, ?_⟩
  all_goals unfold Form.num_coefficients at *
  all_goals dsimp only [residual_after_estimate, Form.num_coefficients]
  · split <;> simp
  · have h1 : s.residual.coefficients.length - 1 < s.residual.coefficients.length := by omega
    have h2 : s.residual.coefficients.length - 2 ≠ s.residual.coefficients.length - 1 := by
      omega
    split
    · rw [List.getElem?_set_ne h2]
      simp [h1]
    · simp [h1]
  · intro hl
    have h2 : s.residual.coefficients.length - 2 < s.residual.coefficients.length := by omega
    simp [hl, h2]
  · intro hl
    have h2 : s.residual.coefficients.length - 1 ≠ s.residual.coefficients.length - 2 := by
      omega
    simp [hl, List.getElem?_set_ne h2]
  · intro i hi1 hi2
    split
    · rw [List.getElem?_set_ne (Ne.symm hi2), List.getElem?_set_ne (Ne.symm hi1)]
    · rw [List.getElem?_set_ne (Ne.symm hi1)]

/-- C7, witness: the example, a linear problem whose residual form has three slots. -/
theorem estimate_error_attaches_witness :
    ∃ t : State,
      estimate_error Example.env Example.u1 [] Example.initial =
        .ok (Example.env.assemble_scalar t.residual) t ∧
      t.Ez_h = some (extrapolated_dual Example.env Example.initial Example.V []) ∧
      t.residual.num_coefficients = Example.initial.residual.num_coefficients ∧
      t.residual.coefficients[Example.initial.residual.num_coefficients - 1]? =
        some (.function (extrapolated_dual Example.env Example.initial Example.V [])) ∧
      (Example.initial.is_linear = true →
        t.residual.coefficients[Example.initial.residual.num_coefficients - 2]? =
          some (.function Example.u1)) ∧
      (Example.initial.is_linear = false →
        t.residual.coefficients[Example.initial.residual.num_coefficients - 2]? =
          Example.initial.residual.coefficients[
            Example.initial.residual.num_coefficients - 2]?) ∧
      (∀ i, i ≠ Example.initial.residual.num_coefficients - 1 →
        i ≠ Example.initial.residual.num_coefficients - 2 →
        t.residual.coefficients[i]? = Example.initial.residual.coefficients[i]?) :=
  estimate_error_attaches Example.env Example.u1 [] Example.initial Example.V
    (by decide) (by decide) (by decide)

/-! ## C8: the stored dual is used as it is -/

/-- C9, at the failing input: the boundary condition `bc` lives on the dual space `V` with
no component path, and the extrapolation space of the orchestrator is `E`, which is another
space. The condition built for the extrapolation is built on `V` (with the markers of
`bc`), and it is that condition which is applied to the vector of `Ez_h`: the collaborator
`bc_apply` of the example writes the label of the space of the condition, and the vector
of `Ez_h` ends up holding `1`, the label of `V`, not `2`, the label of `E`. -/
theorem extrapolation_bc_built_on_bc_space :
    Example.bc.function_space.component = [] ∧ Example.initial.E = Example.E ∧
    Example.V ≠ Example.E ∧
    extrapolation_bc Example.bc =
      some { function_space := Example.V, value := Function.create Example.V,
             markers := [(3, 1)] } ∧
    (compute_extrapolation Example.env Example.u1 [Example.bc] Example.initial).state.Ez_h =
      some { function_space := Example.E, vector := [1] } :=
  ⟨by decide, by decide, by decide, by decide!, by decide!⟩

/-! ## C10: the size of the facet family -/

/-- C10, at the failing input: on a triangle of a surface in space (geometric dimension 3,
topological dimension 2) the family built by `compute_indicators` has 4 members, not
`2 + 1`; the facet pass writes members 0, 1 and 2 (each receives the local solution `2`)
and member 3 still holds the zero vector when the family is attached to slot 2 of the
indicator form. -/
theorem facet_family_sized_by_geometric_dimension :
    Example.surface_mesh.topology_dim + 1 = 3 ∧
    (facet_family (Function.create Example.W_surface) Example.W_surface).length = 4 ∧
    compute_indicators Example.env (Example.primal Example.surface_mesh 1)
        Example.estimated_surface =
      .ok () (compute_indicators Example.env (Example.primal Example.surface_mesh 1)
        Example.estimated_surface).state ∧
    (compute_indicators Example.env (Example.primal Example.surface_mesh 1)
        Example.estimated_surface).state.eta_T.coefficients[2]? =
      some (.facet_function
        { f_e := [{ function_space := Example.W_surface, vector := [2] },
                  { function_space := Example.W_surface, vector := [2] },
                  { function_space := Example.W_surface, vector := [2] },
                  { function_space := Example.W_surface, vector := [0] }],
          value_dim := none }) :=
  ⟨by decide, by decide, by decide!, by decide!⟩


/-! ## Lemmas on the forms that the residual passes leave alone -/

theorem keeps_set_coefficient_at {γ : Type} {f : State → γ} (id : FormId)
    (hf : ∀ (s : State) (F : Form), f (s.with_form id F) = f s) (i : Nat) (c : Coefficient) :
    keeps f (set_coefficient id i c) := by
  intro s
  unfold set_coefficient
  split
  · exact hf s _
  · rfl

theorem keeps_local_solve_of {γ : Type} {f : State → γ}
    (hf : ∀ (s : State) (n : Nat), f { s with solves := n } = f s)
    (env : Collaborators) (N : Nat) (A : Matrix (Fin N) (Fin N) ℚ) (b : Fin N → ℚ) :
    keeps f (local_solve env N A b) := by
  intro s
  unfold local_solve
  split <;> exact hf s _

theorem pass_keeps_cell_residual_loop {γ : Type} {f : State → γ} (hf : pass_independent f)
    (env : Collaborators) (a L : Form) (N : Nat) (cells : List Nat) (R_T : Function) :
    keeps f (cell_residual_loop env a L N cells R_T) := by
  induction cells generalizing R_T with
  | nil => exact keeps_pure f _
  | cons cell cells ih =>
    unfold cell_residual_loop
    exact keeps_bind (keeps_local_solve_of hf.2.2.2 _ _ _ _) (fun x => ih _)

theorem pass_keeps_facet_residual_cell_loop {γ : Type} {f : State → γ}
    (hf : pass_independent f) (env : Collaborators) (a L : Form) (V : FunctionSpace)
    (N local_facet : Nat) (cells : List Nat) (R_dT : SpecialFacetFunction) :
    keeps f (facet_residual_cell_loop env a L V N local_facet cells R_dT) := by
  induction cells generalizing R_dT with
  | nil => exact keeps_pure f _
  | cons cell cells ih =>
    unfold facet_residual_cell_loop
    refine keeps_bind (keeps_local_solve_of hf.2.2.2 _ _ _ _) (fun x => ?_)
    dsimp only
    split
    · exact keeps_raise f _
    · exact ih _

theorem pass_keeps_facet_residual_loop {γ : Type} {f : State → γ} (hf : pass_independent f)
    (env : Collaborators) (V : FunctionSpace) (N dim lcd num_cells n : Nat)
    (facets : List Nat) (R_dT : SpecialFacetFunction) :
    keeps f (facet_residual_loop env V N dim lcd num_cells n facets R_dT) := by
  induction facets generalizing R_dT with
  | nil => exact keeps_pure f _
  | cons l rest ih =>
    unfold facet_residual_loop
    refine keeps_bind (keeps_get_state f) (fun s => ?_)
    refine keeps_bind (keeps_set_coefficient_at _ hf.2.1 _ _) (fun _ => ?_)
    refine keeps_bind (keeps_set_coefficient_at _ hf.2.2.1 _ _) (fun _ => ?_)
    refine keeps_bind (keeps_get_state f) (fun t => ?_)
    exact keeps_bind (pass_keeps_facet_residual_cell_loop hf _ _ _ _ _ _ _ _) (fun R => ih R)

theorem pass_keeps_compute_cell_residual {γ : Type} {f : State → γ}
    (hf : pass_independent f) (env : Collaborators) (R_T u : Function) :
    keeps f (compute_cell_residual env R_T u) := by
  unfold compute_cell_residual
  refine keeps_bind (keeps_get_state f) (fun s => ?_)
  refine keeps_bind (keeps_if_linear (keeps_set_coefficient_at _ hf.1 _ _)) (fun _ => ?_)
  exact keeps_bind (keeps_get_state f) (fun t => pass_keeps_cell_residual_loop hf _ _ _ _ _ _)

theorem pass_keeps_compute_facet_residual {γ : Type} {f : State → γ}
    (hf : pass_independent f) (env : Collaborators) (R_dT : SpecialFacetFunction)
    (u R_T : Function) : keeps f (compute_facet_residual env R_dT u R_T) := by
  unfold compute_facet_residual
  split
  · exact keeps_raise f _
  · refine keeps_bind (keeps_get_state f) (fun s => ?_)
    refine keeps_bind (keeps_if_linear (keeps_set_coefficient_at _ hf.2.2.1 _ _)) (fun _ => ?_)
    exact keeps_bind (keeps_set_coefficient_at _ hf.2.2.1 _ _)
      (fun _ => pass_keeps_facet_residual_loop hf _ _ _ _ _ _ _ _ _)

theorem pass_independent_a_star : pass_independent (fun s : State => s.a_star) :=
  ⟨fun _ _ => rfl, fun _ _ => rfl, fun _ _ => rfl, fun _ _ => rfl⟩

theorem pass_independent_Ez_h : pass_independent (fun s : State => s.Ez_h) :=
  ⟨fun _ _ => rfl, fun _ _ => rfl, fun _ _ => rfl, fun _ _ => rfl⟩

/-! ## Lemmas on the values attached to the indicator form -/

/-- The values attached to the indicator form by lines 178-181, which it has when it is
assembled: slot 0 has the value of the stored extrapolated dual `Ez_h`, slot 1 of the cell
residual `R_T`, slot 2 of the facet residual family `R_dT` and slot 3 of the interpolation
of that same `Ez_h` into the dual trial space `a_star.function_space(1)`; `R_T` is the
result of the cell pass of this call, run from the state of the call on the zero function
of `a_R_T.function_space(1)`, and `R_dT` is the result of the facet pass, run after it
(from the state the cell pass left, with that `R_T`) on the family built in this call. -/
theorem compute_indicators_values (env : Collaborators) (u : Function) (s t : State)
    (h : compute_indicators env u s = .ok () t) :
    ∃ (V_T V_dT V_star : FunctionSpace) (e R_T : Function)
      (R_dT0 R_dT : SpecialFacetFunction) (s1 s2 : State),
      s.a_R_T.function_spaces[1]? = some V_T ∧
      s.a_R_dT.function_spaces[1]? = some V_dT ∧
      s.a_star.function_spaces[1]? = some V_star ∧
      s.Ez_h = some e ∧
      R_dT0.f_e = facet_family (Function.create V_T) V_dT ∧
      compute_cell_residual env (Function.create V_T) u s = .ok R_T s1 ∧
      compute_facet_residual env R_dT0 u R_T s1 = .ok R_dT s2 ∧
      t.eta_T.coefficients[0]? = some (.function e) ∧
      t.eta_T.coefficients[1]? = some (.function R_T) ∧
      t.eta_T.coefficients[2]? = some (.facet_function R_dT) ∧
      t.eta_T.coefficients[3]? =
        some (.function (env.interpolate (Function.create V_star) e)) := by
  unfold compute_indicators at h
  obtain ⟨V_T, t1, h1, ha⟩ := bind_eq_ok h
  obtain ⟨V_dT, t2, h2, hb⟩ := bind_eq_ok ha
  obtain ⟨R_dT0, t3, h3, hc⟩ := bind_eq_ok hb
  obtain ⟨r, t4, h4, hd⟩ := bind_eq_ok hc
  obtain ⟨e1, hVT⟩ := function_space_eq_ok h1
  obtain ⟨e2, hVdT⟩ := function_space_eq_ok h2
  obtain ⟨e3, hfe⟩ := special_facet_function_eq_ok h3
  have e4 : t3 = s := by rw [e3, e2, e1]
  rw [e1] at hVdT
  have hVT' : s.a_R_T.function_spaces[1]? = some V_T := hVT
  have hVdT' : s.a_R_dT.function_spaces[1]? = some V_dT := hVdT
  rw [e4] at h4
  unfold residual_representation at h4
  obtain ⟨R_T, m1, hcell, hf⟩ := bind_eq_ok h4
  obtain ⟨R_dT, m2, hfacet, hg⟩ := bind_eq_ok hf
  cases hg
  have k1 : m1.a_star = s.a_star :=
    keeps_of_eq_ok (f := fun s : State => s.a_star)
      (pass_keeps_compute_cell_residual pass_independent_a_star env _ _) hcell
  have k2 : t4.a_star = m1.a_star :=
    keeps_of_eq_ok (f := fun s : State => s.a_star)
      (pass_keeps_compute_facet_residual pass_independent_a_star env _ _ _) hfacet
  have k3 : m1.Ez_h = s.Ez_h :=
    keeps_of_eq_ok (f := fun s : State => s.Ez_h)
      (pass_keeps_compute_cell_residual pass_independent_Ez_h env _ _) hcell
  have k4 : t4.Ez_h = m1.Ez_h :=
    keeps_of_eq_ok (f := fun s : State => s.Ez_h)
      (pass_keeps_compute_facet_residual pass_independent_Ez_h env _ _ _) hfacet
  obtain ⟨V_star, e, hVs, hE, hlen, ht⟩ := indicators_tail_eq_ok env (R_T, R_dT) t4 t hd
  have hVs' : t4.a_star.function_spaces[1]? = some V_star := hVs
  rw [k2, k1] at hVs'
  rw [k4, k3] at hE
  subst ht
  have l0 : 0 < t4.eta_T.coefficients.length := by omega
  have l1 : 1 < t4.eta_T.coefficients.length := by omega
  have l2 : 2 < t4.eta_T.coefficients.length := by omega
  refine ⟨V_T, V_dT, V_star, e, R_T, R_dT0, R_dT, m1, t4, hVT', hVdT', hVs', hE, hfe, hcell,
    hfacet, ?_, ?_, ?_, ?_⟩
  · show (eta_T_after env t4 (R_T, R_dT) V_star e).coefficients[0]? = _
    simp only [eta_T_after]
    rw [List.getElem?_set_ne (by decide), List.getElem?_set_ne (by decide),
      List.getElem?_set_ne (by decide)]
    simp [l0]
  · show (eta_T_after env t4 (R_T, R_dT) V_star e).coefficients[1]? = _
    simp only [eta_T_after]
    rw [List.getElem?_set_ne (by decide), List.getElem?_set_ne (by decide)]
    simp [l1]
  · show (eta_T_after env t4 (R_T, R_dT) V_star e).coefficients[2]? = _
    simp only [eta_T_after]
    rw [List.getElem?_set_ne (by decide)]
    simp [l2]
  · show (eta_T_after env t4 (R_T, R_dT) V_star e).coefficients[3]? = _
    simp only [eta_T_after]
    simp [hlen]

/-! ## Lemmas on the record of the referents -/

theorem tracked_bind_apply {α β : Type} (m : MT α) (f : α → MT β) (w : Tracked) :
    (m >>= f) w = match m w with
      | .ok a t => f a t
      | .threw e t => .threw e t := rfl

theorem tracked_bind_eq_ok {α β : Type} {m : MT α} {f : α → MT β} {w v : Tracked} {b : β}
    (h : (m >>= f) w = .ok b v) : ∃ a t, m w = .ok a t ∧ f a t = .ok b v := by
  rw [tracked_bind_apply] at h
  cases hm : m w with
  | ok a t => rw [hm] at h; exact ⟨a, t, rfl, h⟩
  | threw e t => rw [hm] at h; cases h

theorem lift_eq_ok {α : Type} {m : M α} {w v : Tracked} {a : α} (h : lift m w = .ok a v) :
    m w.state = .ok a v.state ∧ v.bound = w.bound ∧ v.dangling = w.dangling := by
  unfold lift at h
  cases hm : m w.state with
  | ok b s => rw [hm] at h; cases h; exact ⟨rfl, rfl, rfl⟩
  | threw e s => rw [hm] at h; cases h

theorem attach_eq_ok {id : FormId} {i : Nat} {c : Coefficient} {o : Option LocalObject}
    {w v : Tracked} (h : attach id i c o w = .ok () v) :
    ∃ s, set_coefficient id i c w.state = .ok () s ∧ v = w.attached s (id, i) o := by
  unfold attach at h
  cases hm : set_coefficient id i c w.state with
  | ok b s => rw [hm] at h; cases h; exact ⟨s, rfl, rfl⟩
  | threw e s => rw [hm] at h; cases h

theorem scope_eq_ok {α : Type} {xs : List LocalObject} {m : MT α} {w v : Tracked} {a : α}
    (h : scope xs m w = .ok a v) :
    ∃ t, m w = .ok a t ∧ v = xs.foldl Tracked.end_of_life t := by
  unfold scope at h
  cases hm : m w with
  | ok b t => rw [hm] at h; cases h; exact ⟨t, rfl, rfl⟩
  | threw e t => rw [hm] at h; cases h

theorem end_of_life_state (w : Tracked) (x : LocalObject) : (w.end_of_life x).state = w.state :=
  rfl

theorem foldl_end_of_life_state (xs : List LocalObject) (w : Tracked) :
    (xs.foldl Tracked.end_of_life w).state = w.state := by
  induction xs generalizing w with
  | nil => rfl
  | cons x xs ih => rw [List.foldl_cons, ih, end_of_life_state]

theorem simulates_bind {α β : Type} {m : MT α} {f : α → MT β} {m0 : M α} {f0 : α → M β}
    (hm : simulates m m0) (hf : ∀ a, simulates (f a) (f0 a)) :
    simulates (m >>= f) (m0 >>= f0) := by
  intro w
  have h1 := hm w
  rw [tracked_bind_apply, bind_apply]
  cases hmw : m w with
  | ok a t =>
    rw [hmw] at h1
    simp only [TResult.erase] at h1
    rw [← h1]
    exact hf a t
  | threw e t =>
    rw [hmw] at h1
    simp only [TResult.erase] at h1
    rw [← h1]
    rfl

theorem simulates_pure {α : Type} (a : α) : simulates (pure a : MT α) (pure a : M α) :=
  fun _ => rfl

theorem simulates_lift {α : Type} (m : M α) : simulates (lift m) m := by
  intro w
  unfold lift
  cases m w.state <;> rfl

theorem simulates_attach (id : FormId) (i : Nat) (c : Coefficient) (o : Option LocalObject) :
    simulates (attach id i c o) (set_coefficient id i c) := by
  intro w
  unfold attach
  cases h : set_coefficient id i c w.state <;> rfl

theorem simulates_if_linear {act : MT Unit} {act0 : M Unit} (h : simulates act act0) :
    simulates (if_linear_tracked act) (if_linear act0) := by
  intro w
  unfold if_linear_tracked if_linear
  split
  · exact h w
  · rfl

theorem simulates_scope {α : Type} {xs : List LocalObject} {m : MT α} {m0 : M α}
    (h : simulates m m0) : simulates (scope xs m) m0 := by
  intro w
  have h1 := h w
  unfold scope
  cases hm : m w with
  | ok a t =>
    rw [hm] at h1
    simp only [TResult.erase] at h1 ⊢
    rw [foldl_end_of_life_state]
    exact h1
  | threw e t =>
    rw [hm] at h1
    simp only [TResult.erase] at h1 ⊢
    rw [foldl_end_of_life_state]
    exact h1

theorem simulates_compute_cell_residual (env : Collaborators) (R_T u : Function) :
    simulates (compute_cell_residual_tracked env R_T u) (compute_cell_residual env R_T u) := by
  unfold compute_cell_residual_tracked compute_cell_residual
  refine simulates_bind (simulates_lift _) (fun s => ?_)
  refine simulates_bind (simulates_if_linear (simulates_attach _ _ _ _)) (fun _ => ?_)
  exact simulates_bind (simulates_lift _) (fun t => simulates_lift _)

theorem bind_assoc_M {α β γ : Type} (m : M α) (f : α → M β) (g : β → M γ) :
    (m >>= f) >>= g = m >>= fun a => f a >>= g := by
  funext s
  simp only [bind_apply]
  cases m s <;> rfl

theorem simulates_facet_residual_loop (env : Collaborators) (V : FunctionSpace)
    (N dim lcd num_cells n : Nat) (facets : List Nat) (R_dT : SpecialFacetFunction) :
    simulates (facet_residual_loop_tracked env V N dim lcd num_cells n facets R_dT)
      (facet_residual_loop env V N dim lcd num_cells n facets R_dT) := by
  induction facets generalizing R_dT with
  | nil => exact simulates_pure _
  | cons l rest ih =>
    have e : facet_residual_loop env V N dim lcd num_cells n (l :: rest) R_dT =
        ((get_state >>= fun s =>
          set_coefficient .a_R_dT 0
            (.function (cone_function s.C lcd dim num_cells l)) >>= fun _ =>
          set_coefficient .L_R_dT (usub n 1)
            (.function (cone_function s.C lcd dim num_cells l)) >>= fun _ =>
          get_state >>= fun t =>
          facet_residual_cell_loop env t.a_R_dT t.L_R_dT V N l
            (List.range V.mesh.num_cells) R_dT) >>= fun R =>
          facet_residual_loop env V N dim lcd num_cells n rest R) := by
      rw [facet_residual_loop]
      simp only [bind_assoc_M]
    rw [e]
    unfold facet_residual_loop_tracked
    refine simulates_bind (simulates_scope ?_) (fun R => ih R)
    refine simulates_bind (simulates_lift _) (fun s => ?_)
    refine simulates_bind (simulates_attach _ _ _ _) (fun _ => ?_)
    refine simulates_bind (simulates_attach _ _ _ _) (fun _ => ?_)
    exact simulates_bind (simulates_lift _) (fun t => simulates_lift _)

theorem simulates_compute_facet_residual (env : Collaborators) (R_dT : SpecialFacetFunction)
    (u R_T : Function) :
    simulates (compute_facet_residual_tracked env R_dT u R_T)
      (compute_facet_residual env R_dT u R_T) := by
  unfold compute_facet_residual_tracked compute_facet_residual
  cases R_dT.f_e[0]? with
  | none => exact simulates_lift _
  | some f0 =>
    dsimp only
    refine simulates_bind (simulates_lift _) (fun s => ?_)
    refine simulates_bind (simulates_if_linear (simulates_attach _ _ _ _)) (fun _ => ?_)
    exact simulates_bind (simulates_attach _ _ _ _)
      (fun _ => simulates_facet_residual_loop _ _ _ _ _ _ _ _ _)

theorem simulates_residual_representation (env : Collaborators) (R_T : Function)
    (R_dT : SpecialFacetFunction) (u : Function) :
    simulates (residual_representation_tracked env R_T R_dT u)
      (residual_representation env R_T R_dT u) := by
  unfold residual_representation_tracked residual_representation
  refine simulates_bind (simulates_compute_cell_residual _ _ _) (fun R => ?_)
  exact simulates_bind (simulates_compute_facet_residual _ _ _ _) (fun _ => simulates_pure _)

/-- Up to line 187, the run with the record of the referents does to the state what
`compute_indicators` does. -/
theorem simulates_compute_indicators_body (env : Collaborators) (u : Function) :
    simulates (compute_indicators_body env u) (compute_indicators env u) := by
  unfold compute_indicators_body compute_indicators
  refine simulates_bind (simulates_lift _) (fun V_T => ?_)
  refine simulates_bind (simulates_lift _) (fun V_dT => ?_)
  refine simulates_bind (simulates_lift _) (fun R_dT => ?_)
  refine simulates_bind (simulates_residual_representation _ _ _ _) (fun r => ?_)
  refine simulates_bind (simulates_lift _) (fun V_star => ?_)
  refine simulates_bind (simulates_lift _) (fun Ez_h => ?_)
  refine simulates_bind (simulates_attach _ _ _ _) (fun _ => ?_)
  refine simulates_bind (simulates_attach _ _ _ _) (fun _ => ?_)
  refine simulates_bind (simulates_attach _ _ _ _) (fun _ => ?_)
  refine simulates_bind (simulates_attach _ _ _ _) (fun _ => ?_)
  exact simulates_bind (simulates_lift _) (fun _ => simulates_lift _)

/-- The record of the referents when line 187 is reached: the four slots of the indicator
form refer to living objects; slots 1, 2, 3 refer to `R_T`, `R_dT`, `Pi_E_z_h`, and slot 0
refers to no object of the call. -/
theorem compute_indicators_body_record (env : Collaborators) (u : Function)
    (w a : Tracked) (h : compute_indicators_body env u w = .ok () a) :
    ((FormId.eta_T, 0) ∉ a.dangling ∧ (FormId.eta_T, 1) ∉ a.dangling ∧
      (FormId.eta_T, 2) ∉ a.dangling ∧ (FormId.eta_T, 3) ∉ a.dangling) ∧
    (∀ x, ((FormId.eta_T, 0), x) ∉ a.bound) ∧
    ((FormId.eta_T, 1), LocalObject.R_T) ∈ a.bound ∧
    ((FormId.eta_T, 2), LocalObject.R_dT) ∈ a.bound ∧
    ((FormId.eta_T, 3), LocalObject.Pi_E_z_h) ∈ a.bound := by
  unfold compute_indicators_body at h
  obtain ⟨V_T, w1, h1, ha⟩ := tracked_bind_eq_ok h
  obtain ⟨V_dT, w2, h2, hb⟩ := tracked_bind_eq_ok ha
  obtain ⟨R_dT, w3, h3, hc⟩ := tracked_bind_eq_ok hb
  obtain ⟨r, w4, h4, hd⟩ := tracked_bind_eq_ok hc
  obtain ⟨V_star, w5, h5, he⟩ := tracked_bind_eq_ok hd
  obtain ⟨Ez_h, w6, h6, hf⟩ := tracked_bind_eq_ok he
  obtain ⟨_, w7, h7, hg⟩ := tracked_bind_eq_ok hf
  obtain ⟨_, w8, h8, hh⟩ := tracked_bind_eq_ok hg
  obtain ⟨_, w9, h9, hi⟩ := tracked_bind_eq_ok hh
  obtain ⟨_, w10, h10, hj⟩ := tracked_bind_eq_ok hi
  obtain ⟨_, w11, h11, hk⟩ := tracked_bind_eq_ok hj
  obtain ⟨_, b11, d11⟩ := lift_eq_ok h11
  obtain ⟨_, b12, d12⟩ := lift_eq_ok hk
  obtain ⟨s7, _, e7⟩ := attach_eq_ok h7
  obtain ⟨s8, _, e8⟩ := attach_eq_ok h8
  obtain ⟨s9, _, e9⟩ := attach_eq_ok h9
  obtain ⟨s10, _, e10⟩ := attach_eq_ok h10
  rw [b12, d12, b11, d11, e10, e9, e8, e7]
  simp [Tracked.attached, List.mem_filter, List.mem_append]

theorem end_of_life_dangling_of_bound {w : Tracked} {slot : Slot} {x : LocalObject}
    (h : (slot, x) ∈ w.bound) : slot ∈ (w.end_of_life x).dangling := by
  simp only [Tracked.end_of_life, List.mem_append, List.mem_map, List.mem_filter]
  exact Or.inr ⟨(slot, x), ⟨h, by simp⟩, rfl⟩

theorem end_of_life_dangling_mono {w : Tracked} {slot : Slot} (y : LocalObject)
    (h : slot ∈ w.dangling) : slot ∈ (w.end_of_life y).dangling := by
  simp only [Tracked.end_of_life, List.mem_append]
  exact Or.inl h

theorem end_of_life_bound_of_ne {w : Tracked} {slot : Slot} {x y : LocalObject}
    (h : (slot, x) ∈ w.bound) (hxy : x ≠ y) : (slot, x) ∈ (w.end_of_life y).bound := by
  simp only [Tracked.end_of_life, List.mem_filter]
  exact ⟨h, by simpa using hxy⟩

theorem end_of_life_unbound {w : Tracked} {slot : Slot} (y : LocalObject)
    (hd : slot ∉ w.dangling) (hb : ∀ x, (slot, x) ∉ w.bound) :
    slot ∉ (w.end_of_life y).dangling ∧ ∀ x, (slot, x) ∉ (w.end_of_life y).bound := by
  constructor
  · simp only [Tracked.end_of_life, List.mem_append, List.mem_map, List.mem_filter]
    rintro (h | ⟨⟨s', x⟩, ⟨hm, _⟩, rfl⟩)
    · exact hd h
    · exact hb x hm
  · intro x hx
    simp only [Tracked.end_of_life, List.mem_filter] at hx
    exact hb x hx.1

/-- On a normal return of `compute_indicators` the indicators are the absolute values of
the vector assembled from the indicator form. -/
theorem compute_indicators_assembled (env : Collaborators) (u : Function) (s t : State)
    (h : compute_indicators env u s = .ok () t) :
    t.indicators = vector_abs (env.assemble_vector t.eta_T) := by
  unfold compute_indicators at h
  obtain ⟨V_T, t1, h1, ha⟩ := bind_eq_ok h
  obtain ⟨V_dT, t2, h2, hb⟩ := bind_eq_ok ha
  obtain ⟨R_dT, t3, h3, hc⟩ := bind_eq_ok hb
  obtain ⟨r, t4, h4, hd⟩ := bind_eq_ok hc
  obtain ⟨V_star, e, _, _, _, ht⟩ := indicators_tail_eq_ok env r t4 t hd
  rw [ht]

/-! ## C11: the coefficients of the indicator form -/

/-- C11, counterexample: in the example, `compute_indicators(u1)` after
`estimate_error(u1, [])` returns, and on return slots 1, 2 and 3 of the indicator form
hold nothing: the objects attached there (`R_T`, `R_dT`, `Pi_E_z_h`) have been destroyed. -/
theorem compute_indicators_leaves_dangling_slots :
    compute_indicators_tracked Example.env Example.u1 Example.estimated_tracked =
      .ok () (compute_indicators_tracked Example.env Example.u1
        Example.estimated_tracked).world ∧
    (∀ c, ¬ (compute_indicators_tracked Example.env Example.u1
        Example.estimated_tracked).world.holds .eta_T 1 c) ∧
    (∀ c, ¬ (compute_indicators_tracked Example.env Example.u1
        Example.estimated_tracked).world.holds .eta_T 2 c) ∧
    (∀ c, ¬ (compute_indicators_tracked Example.env Example.u1
        Example.estimated_tracked).world.holds .eta_T 3 c) := by
  refine ⟨by decide!, fun c h => h.2 ?_, fun c h => h.2 ?_, fun c h => h.2 ?_⟩ <;> decide!

/-- C11, amended: when `compute_indicators(u)` returns, it has reached the end of line 187,
and there the indicator form, just assembled, held in this order the stored extrapolated
dual `Ez_h` in slot 0, the cell residual `R_T` in slot 1, the facet residual family `R_dT`
in slot 2 and, in slot 3, the interpolation of that same `Ez_h` into the dual trial space;
`R_T` and `R_dT` are the results of the cell pass and of the facet pass of this call, the
cell pass run before the facet pass. On return the state is the one of line 187, slot 0
still holds `Ez_h`, and slots 1, 2 and 3 dangle: `R_dT` has been deleted and the locals
`R_T` and `Pi_E_z_h` are gone. -/
theorem compute_indicators_attaches_until_return (env : Collaborators) (u : Function)
    (w v : Tracked) (h : compute_indicators_tracked env u w = .ok () v) :
    ∃ (a : Tracked) (V_T V_dT V_star : FunctionSpace) (e R_T : Function)
      (R_dT0 R_dT : SpecialFacetFunction) (s1 s2 : State),
      compute_indicators_body env u w = .ok () a ∧
      w.state.a_R_T.function_spaces[1]? = some V_T ∧
      w.state.a_R_dT.function_spaces[1]? = some V_dT ∧
      w.state.a_star.function_spaces[1]? = some V_star ∧
      w.state.Ez_h = some e ∧
      R_dT0.f_e = facet_family (Function.create V_T) V_dT ∧
      compute_cell_residual env (Function.create V_T) u w.state = .ok R_T s1 ∧
      compute_facet_residual env R_dT0 u R_T s1 = .ok R_dT s2 ∧
      a.holds .eta_T 0 (.function e) ∧
      a.holds .eta_T 1 (.function R_T) ∧
      a.holds .eta_T 2 (.facet_function R_dT) ∧
      a.holds .eta_T 3 (.function (env.interpolate (Function.create V_star) e)) ∧
      a.state.indicators = vector_abs (env.assemble_vector a.state.eta_T) ∧
      v.state = a.state ∧
      v.holds .eta_T 0 (.function e) ∧
      (FormId.eta_T, 1) ∈ v.dangling ∧ (FormId.eta_T, 2) ∈ v.dangling ∧
      (FormId.eta_T, 3) ∈ v.dangling := by
  unfold compute_indicators_tracked at h
  obtain ⟨t, hb, hv⟩ := scope_eq_ok h
  obtain ⟨_, a, hbody, hdel⟩ := tracked_bind_eq_ok hb
  have ht : t = a.end_of_life .R_dT := by
    unfold delete_object at hdel
    cases hdel
    rfl
  have hsim : compute_indicators env u w.state = .ok () a.state := by
    have := simulates_compute_indicators_body env u w
    rw [hbody] at this
    exact this.symm
  obtain ⟨V_T, V_dT, V_star, e, R_T, R_dT0, R_dT, s1, s2, q1, q2, q3, q4, q5, q6, q7,
    c0, c1, c2, c3⟩ := compute_indicators_values env u w.state a.state hsim
  obtain ⟨⟨d0, d1, d2, d3⟩, b0, b1, b2, b3⟩ := compute_indicators_body_record env u w a hbody
  have habs : a.state.indicators = vector_abs (env.assemble_vector a.state.eta_T) := by
    exact compute_indicators_assembled env u w.state a.state hsim
  refine ⟨a, V_T, V_dT, V_star, e, R_T, R_dT0, R_dT, s1, s2, hbody, q1, q2, q3, q4, q5, q6,
    q7, ⟨c0, d0⟩, ⟨c1, d1⟩, ⟨c2, d2⟩, ⟨c3, d3⟩, habs, ?_, ?_, ?_, ?_, ?_⟩
  · rw [hv, foldl_end_of_life_state, ht, end_of_life_state]
  · subst hv
    subst ht
    refine ⟨c0, ?_⟩
    have u1 := end_of_life_unbound .R_dT d0 b0
    have u2 := end_of_life_unbound .Pi_E_z_h u1.1 u1.2
    exact (end_of_life_unbound .R_T u2.1 u2.2).1
  · subst hv
    subst ht
    have m1 := end_of_life_bound_of_ne (y := .R_dT) b1 (by decide)
    have m2 := end_of_life_bound_of_ne (y := .Pi_E_z_h) m1 (by decide)
    exact end_of_life_dangling_of_bound m2
  · subst hv
    subst ht
    exact end_of_life_dangling_mono _ (end_of_life_dangling_mono _
      (end_of_life_dangling_of_bound b2))
  · subst hv
    subst ht
    have m1 := end_of_life_bound_of_ne (y := .R_dT) b3 (by decide)
    exact end_of_life_dangling_mono _ (end_of_life_dangling_of_bound m1)

/-- C11, witness: the example, `compute_indicators(u1)` after `estimate_error(u1, [])`. -/
theorem compute_indicators_attaches_until_return_witness :
    Example.indicated_tracked.dangling =
      [(.a_R_dT, 0), (.L_R_dT, 3), (.eta_T, 2), (.eta_T, 3), (.L_R_dT, 2), (.eta_T, 1)] ∧
    ∃ (a : Tracked) (V_T V_dT V_star : FunctionSpace) (e R_T : Function)
      (R_dT0 R_dT : SpecialFacetFunction) (s1 s2 : State),
      compute_indicators_body Example.env Example.u1 Example.estimated_tracked = .ok () a ∧
      Example.estimated_tracked.state.a_R_T.function_spaces[1]? = some V_T ∧
      Example.estimated_tracked.state.a_R_dT.function_spaces[1]? = some V_dT ∧
      Example.estimated_tracked.state.a_star.function_spaces[1]? = some V_star ∧
      Example.estimated_tracked.state.Ez_h = some e ∧
      R_dT0.f_e = facet_family (Function.create V_T) V_dT ∧
      compute_cell_residual Example.env (Function.create V_T) Example.u1
        Example.estimated_tracked.state = .ok R_T s1 ∧
      compute_facet_residual Example.env R_dT0 Example.u1 R_T s1 = .ok R_dT s2 ∧
      a.holds .eta_T 0 (.function e) ∧
      a.holds .eta_T 1 (.function R_T) ∧
      a.holds .eta_T 2 (.facet_function R_dT) ∧
      a.holds .eta_T 3 (.function (Example.env.interpolate (Function.create V_star) e)) ∧
      a.state.indicators = vector_abs (Example.env.assemble_vector a.state.eta_T) ∧
      Example.indicated_tracked.state = a.state ∧
      Example.indicated_tracked.holds .eta_T 0 (.function e) ∧
      (FormId.eta_T, 1) ∈ Example.indicated_tracked.dangling ∧
      (FormId.eta_T, 2) ∈ Example.indicated_tracked.dangling ∧
      (FormId.eta_T, 3) ∈ Example.indicated_tracked.dangling :=
  ⟨by decide!, compute_indicators_attaches_until_return Example.env Example.u1
    Example.estimated_tracked Example.indicated_tracked (by decide!)⟩

/-! ## Lemmas on the cone function -/

theorem foldl_set_const (ps : List (Nat × ℚ)) (c : ℚ) (hc : ∀ p ∈ ps, p.2 = c)
    (v : List ℚ) (i : Nat) :
    (ps.foldl (fun acc p => acc.set p.1 p.2) v)[i]? =
      if i ∈ ps.map Prod.fst ∧ i < v.length then some c else v[i]? := by
  induction ps generalizing v with
  | nil => simp
  | cons p ps ih =>
    have hp : p.2 = c := hc p (List.mem_cons_self _ _)
    have hps : ∀ q ∈ ps, q.2 = c := fun q hq => hc q (List.mem_cons_of_mem _ hq)
    rw [List.foldl_cons, ih hps]
    simp only [List.length_set, List.map_cons, List.mem_cons, List.getElem?_set]
    by_cases hi : i < v.length
    · by_cases h1 : i ∈ ps.map Prod.fst
      · simp [h1, hi]
      · by_cases h2 : p.1 = i
        · simp [h1, hi, h2, hp]
        · have h3 : ¬ i = p.1 := fun h => h2 h.symm
          simp [h1, hi, h2, h3]
    · have hnone : v[i]? = none := List.getElem?_eq_none (by omega)
      by_cases h2 : p.1 = i
      · simp [hi, h2, hnone]
      · simp [hi, h2, hnone]

theorem facet_dof_eq_cone_index (lcd dim num_cells l k : Nat) (hl : l ≤ dim)
    (hk : k < num_cells) (hlcd : dim + 1 ≤ lcd)
    (hfit : (lcd : Int) * num_cells ≤ UINT_RANGE) :
    facet_dof lcd dim k l = cone_index lcd dim k l := by
  have h := facet_dof_exact lcd dim num_cells l k hl hk hlcd hfit
  have h2 : ((cone_index lcd dim k l : Nat) : Int) =
      (lcd : Int) * ((k : Int) + 1) - ((dim : Int) + 1) + l := by
    unfold cone_index
    push_cast [Nat.cast_sub hlcd]
    ring
  exact_mod_cast h.trans h2.symm

theorem facet_dofs_eq_cone_indices (lcd dim num_cells l : Nat) (hl : l ≤ dim)
    (hlcd : dim + 1 ≤ lcd) (hfit : (lcd : Int) * num_cells ≤ UINT_RANGE) :
    facet_dofs lcd dim num_cells l =
      (List.range num_cells).map (fun k => cone_index lcd dim k l) := by
  unfold facet_dofs
  apply List.map_congr_left
  intro k hk
  exact facet_dof_eq_cone_index lcd dim num_cells l k hl (List.mem_range.mp hk) hlcd hfit

/-- The entries of the cone function, given the block layout. -/
theorem cone_function_entry (C : FunctionSpace) (lcd dim num_cells l : Nat) (hl : l ≤ dim)
    (hlcd : dim + 1 ≤ lcd) (hfit : (lcd : Int) * num_cells ≤ UINT_RANGE) (i : Nat) :
    (cone_function C lcd dim num_cells l).vector[i]? =
      if (∃ k, k < num_cells ∧ cone_index lcd dim k l = i) ∧ i < C.dim then some 1
      else (List.replicate C.dim (0 : ℚ))[i]? := by
  unfold cone_function vector_set
  simp only [Function.create]
  rw [foldl_set_const _ 1]
  · have hmap : ((facet_dofs lcd dim num_cells l).zip (List.replicate num_cells (1 : ℚ))).map
        Prod.fst = facet_dofs lcd dim num_cells l := by
      apply List.map_fst_zip
      simp [facet_dofs]
    rw [hmap, facet_dofs_eq_cone_indices lcd dim num_cells l hl hlcd hfit]
    simp [List.mem_map, List.mem_range]
  · intro p hp
    have := (List.of_mem_zip hp).2
    exact (List.mem_replicate.mp this).2


theorem foldl_set_length (ps : List (Nat × ℚ)) (v : List ℚ) :
    (ps.foldl (fun acc p => acc.set p.1 p.2) v).length = v.length := by
  induction ps generalizing v with
  | nil => rfl
  | cons p ps ih => rw [List.foldl_cons, ih, List.length_set]

theorem cone_index_in_block (lcd dim k l : Nat) (hl : l ≤ dim) (hlcd : dim + 1 ≤ lcd) :
    lcd * k ≤ cone_index lcd dim k l ∧ lcd * (k + 1) - (dim + 1) ≤ cone_index lcd dim k l ∧
      cone_index lcd dim k l < lcd * (k + 1) := by
  unfold cone_index
  have : lcd * (k + 1) = lcd * k + lcd := by ring
  omega

theorem cone_index_block_unique (lcd dim k j l i : Nat) (hl : l ≤ dim)
    (hlcd : dim + 1 ≤ lcd) (h1 : lcd * k ≤ i) (h2 : i < lcd * (k + 1))
    (hj : cone_index lcd dim j l = i) : j = k := by
  obtain ⟨a, _, c⟩ := cone_index_in_block lcd dim j l hl hlcd
  rw [hj] at a c
  have hjk : j < k + 1 := Nat.lt_of_mul_lt_mul_left (lt_of_le_of_lt a h2)
  have hkj : k < j + 1 := Nat.lt_of_mul_lt_mul_left (lt_of_le_of_lt h1 c)
  omega

/-! ## C12: the cone function -/

/-- C12: provided `local_cone_dim >= dim + 1` and the coefficient vector of the cone space
has length `local_cone_dim * num_cells` (a length is an `unsigned int` value), the cone
function built for the local facet `l <= dim` keeps that length; for every cell `k` the
index computation does not wrap (`dim + 1 <= local_cone_dim*(k+1) < 2^32`) and yields
`local_cone_dim*k + (local_cone_dim - (dim+1) + l)`, where the value is 1; the value is 0
at every other index; so in the block `[local_cone_dim*k, local_cone_dim*(k+1))` of each
cell the only nonzero entry is at that index, which lies among the last `dim + 1`
positions of the block. -/
theorem cone_function_block_layout (C : FunctionSpace) (lcd dim num_cells l : Nat)
    (hl : l ≤ dim) (hlcd : dim + 1 ≤ lcd) (hlen : C.dim = lcd * num_cells)
    (hfit : (C.dim : Int) < UINT_RANGE) :
    (cone_function C lcd dim num_cells l).vector.length = lcd * num_cells ∧
    (∀ k, k < num_cells →
      dim + 1 ≤ lcd * (k + 1) ∧ ((lcd * (k + 1) : Nat) : Int) < UINT_RANGE ∧
      facet_dof lcd dim k l = cone_index lcd dim k l ∧
      (cone_function C lcd dim num_cells l).vector[cone_index lcd dim k l]? = some 1) ∧
    (∀ i, i < lcd * num_cells → (∀ k, k < num_cells → i ≠ cone_index lcd dim k l) →
      (cone_function C lcd dim num_cells l).vector[i]? = some 0) ∧
    (∀ k, k < num_cells → ∀ i, lcd * k ≤ i → i < lcd * (k + 1) →
      ((cone_function C lcd dim num_cells l).vector[i]? ≠ some 0 ↔
        i = cone_index lcd dim k l)) ∧
    (∀ k, k < num_cells →
      lcd * k ≤ cone_index lcd dim k l ∧
      lcd * (k + 1) - (dim + 1) ≤ cone_index lcd dim k l ∧
      cone_index lcd dim k l < lcd * (k + 1)) := by
  have hfit' : (lcd : Int) * num_cells ≤ UINT_RANGE := by
    have : ((lcd * num_cells : Nat) : Int) < UINT_RANGE := by rw [← hlen]; exact hfit
    push_cast at this
    exact le_of_lt this
  have hblock : ∀ k, k < num_cells → lcd * (k + 1) ≤ lcd * num_cells :=
    fun k hk => Nat.mul_le_mul_left lcd hk
  have hzero : ∀ i, i < C.dim → (List.replicate C.dim (0 : ℚ))[i]? = some 0 := by
    intro i hi
    simp [hi]
  refine ⟨?_, ?_, ?_, ?_, ?_⟩
  · unfold cone_function vector_set
    simp [foldl_set_length, Function.create, hlen]
  · intro k hk
    obtain ⟨_, _, c⟩ := cone_index_in_block lcd dim k l hl hlcd
    refine ⟨?_, ?_, facet_dof_eq_cone_index lcd dim num_cells l k hl hk hlcd hfit', ?_⟩
    · have : lcd * (k + 1) = lcd * k + lcd := by ring
      omega
    · have h1 : ((lcd * (k + 1) : Nat) : Int) ≤ ((lcd * num_cells : Nat) : Int) := by
        exact_mod_cast hblock k hk
      have h2 : ((lcd * num_cells : Nat) : Int) < UINT_RANGE := by rw [← hlen]; exact hfit
      exact lt_of_le_of_lt h1 h2
    · rw [cone_function_entry C lcd dim num_cells l hl hlcd hfit']
      have hin : cone_index lcd dim k l < C.dim := by
        rw [hlen]; exact lt_of_lt_of_le c (hblock k hk)
      rw [if_pos ⟨⟨k, hk, rfl⟩, hin⟩]
  · intro i hi hne
    rw [cone_function_entry C lcd dim num_cells l hl hlcd hfit']
    have hnot : ¬ ((∃ k, k < num_cells ∧ cone_index lcd dim k l = i) ∧ i < C.dim) := by
      rintro ⟨⟨k, hk, hki⟩, _⟩
      exact hne k hk hki.symm
    rw [if_neg hnot]
    exact hzero i (by rw [hlen]; exact hi)
  · intro k hk i h1 h2
    have hi : i < C.dim := by rw [hlen]; exact lt_of_lt_of_le h2 (hblock k hk)
    rw [cone_function_entry C lcd dim num_cells l hl hlcd hfit']
    constructor
    · intro hne
      by_contra hcon
      apply hne
      have hnot : ¬ ((∃ j, j < num_cells ∧ cone_index lcd dim j l = i) ∧ i < C.dim) := by
        rintro ⟨⟨j, hj, hji⟩, _⟩
        have := cone_index_block_unique lcd dim k j l i hl hlcd h1 h2 hji
        subst this
        exact hcon hji.symm
      rw [if_neg hnot]
      exact hzero i hi
    · intro he
      rw [if_pos ⟨⟨k, hk, he.symm⟩, hi⟩]
      norm_num
  · intro k _
    exact cone_index_in_block lcd dim k l hl hlcd

/-- C12, witness: a cone space with three degrees of freedom per cell on two triangles
(`dim = 2`), local facet 1: the cone function is `[0, 1, 0, 0, 1, 0]`. -/
theorem cone_function_block_layout_witness :
    (cone_function Example.cone_space_two_cells 3 2 2 1).vector = [0, 1, 0, 0, 1, 0] ∧
    (cone_function Example.cone_space_two_cells (3 : Nat) (2 : Nat) 2 (1 : Nat)).vector.length
      = 3 * 2 :=
  ⟨by decide!,
    (cone_function_block_layout Example.cone_space_two_cells 3 2 2 1 (by decide) (by decide)
      (by decide) (by decide)).1⟩

end ErrorControl
